import Mathlib

/-!
# go-commons `config`: environment loader

A shallow embedding of `config/config.go` and `config/errors.go`.

* A Go value seen through `reflect` is a `Value`; a struct is the list of its
  fields, each a `reflect.StructField` descriptor paired with the field's
  current value. `parse` mutates the struct in place, so the embedding returns
  the struct after the traversal next to the error.
* The process environment is an association list read by `Getenv`; every call
  of `os.Getenv` is recorded in `lookups`, in order.
* The Go standard library functions the loader calls (`strconv.ParseBool`,
  `strconv.ParseInt`, `errors.Join`, `reflect.Value.SetInt`) are transcribed
  from the standard library's sources.
-/

namespace Config

/-! ## Environment and struct tags -/

/-- The process environment: `KEY=value` pairs. -/
abbrev Environ := List (String × String)

/-- `os.Getenv`: the value of the variable, or the empty string when unset. -/
def Getenv (environ : Environ) (key : String) : String :=
  match environ.lookup key with
  | some v => v
  | none => ""

/-- A `reflect.StructTag` in its conventional `key:"value"` form, as pairs. -/
abbrev StructTag := List (String × String)

/-- `StructTag.Lookup`: the value under `key` and whether the key was present. -/
def StructTag.Lookup (tag : StructTag) (key : String) : Option String :=
  List.lookup key tag

/-- `StructTag.Get`: the value under `key`, the empty string when absent. -/
def StructTag.Get (tag : StructTag) (key : String) : String :=
  match StructTag.Lookup tag key with
  | some v => v
  | none => ""

def envTag : String := "env"

def envDefaultTag : String := "env_default"

/-! ## Values -/

/-- The signed integer kinds of `reflect`. -/
inductive IntKind where
  | Int | Int8 | Int16 | Int32 | Int64
  deriving DecidableEq, Repr

/-- `strconv.IntSize` on a 64-bit platform. -/
def IntSize : Nat := 64

/-- `reflect.Type.Bits` for the signed integer kinds. -/
def IntKind.Bits : IntKind → Nat
  | .Int => IntSize
  | .Int8 => 8
  | .Int16 => 16
  | .Int32 => 32
  | .Int64 => 64

/-- The kinds the loader has no case for. -/
inductive OtherKind where
  | Uint | Uint8 | Uint16 | Uint32 | Uint64 | Uintptr
  | Float32 | Float64 | Complex64 | Complex128
  | Array | Chan | Func | Interface | Map | Slice
  deriving DecidableEq, Repr

/-- The descriptor `reflect.Type.Field(i)` returns: name, whether the field is
exported (`PkgPath == ""`), the printed type and the tag. -/
structure StructField where
  Name : String
  Exported : Bool
  Typ : String
  Tag : StructTag
  deriving DecidableEq, Repr

/-- A Go value as `reflect` sees it. `other` carries the printed content of a
value of a kind the loader does not handle. -/
inductive Value where
  | str (s : String)
  | bool (b : Bool)
  | int (k : IntKind) (n : Int)
  | struct (fields : List (StructField × Value))
  | ptr (elem : Option Value)
  | other (k : OtherKind) (content : String)

/-- A struct's fields with their values. -/
abbrev Fields := List (StructField × Value)

/-- `reflect.Value.CanSet` for a field of an addressable struct reached through
exported fields only: exactly the exported fields are settable. -/
def StructField.CanSet (f : StructField) : Bool := f.Exported

/-! ## Errors -/

/-- The two sentinel causes of `strconv.NumError`, and the bit size error. -/
inductive NumCause where
  | ErrSyntax
  | ErrRange
  | BitSize (n : Nat)
  deriving DecidableEq, Repr

/-- `strconv.NumError`. -/
structure NumError where
  Func : String
  Num : String
  Err : NumCause
  deriving DecidableEq, Repr

/-- The errors of the package. `unsupportedType` is the value of
`fmt.Errorf("unsupported type %q for field %s", field.Type, field.Name)`;
`joinError` is what `errors.Join` returns. -/
inductive GoError where
  | ErrEmptyValue (Field : String) (Key : String)
  | ErrNotStructPtr
  | ErrParseErr (Field : String) (Typ : String) (Err : NumError)
  | unsupportedType (Typ : String) (Field : String)
  | joinError (errs : List GoError)

/-- `errors.Join` on a slice of non-nil errors: nil when the slice is empty,
otherwise one error wrapping the slice as it is. -/
def errorsJoin (errs : List GoError) : Option GoError :=
  match errs with
  | [] => none
  | e :: es => some (.joinError (e :: es))

/-! ## strconv -/

def syntaxError (fn str : String) : NumError := ⟨fn, str, .ErrSyntax⟩

def rangeError (fn str : String) : NumError := ⟨fn, str, .ErrRange⟩

def bitSizeError (fn str : String) (bitSize : Nat) : NumError := ⟨fn, str, .BitSize bitSize⟩

/-- `strconv.ParseBool`. -/
def ParseBool (str : String) : Bool × Option NumError :=
  if str = "1" ∨ str = "t" ∨ str = "T" ∨ str = "true" ∨ str = "TRUE" ∨ str = "True" then
    (true, none)
  else if str = "0" ∨ str = "f" ∨ str = "F" ∨ str = "false" ∨ str = "FALSE" ∨ str = "False" then
    (false, none)
  else
    (false, some (syntaxError "ParseBool" str))

def maxUint64 : Nat := 2 ^ 64 - 1

/-- The digit loop of `strconv.ParseUint` for base 10 over the bytes still to
read, `n` being the `uint64` accumulated so far. A byte that is not a decimal
digit is a syntax error in base 10 (a letter is a digit of value at least 10,
an underscore is only skipped in base 0). -/
def ParseUint.loop (s0 : String) (maxVal : Nat) : Nat → List Char → Nat × Option NumError
  | n, [] => (n, none)
  | n, c :: cs =>
    if '0'.toNat ≤ c.toNat ∧ c.toNat ≤ '9'.toNat then
      let d := c.toNat - '0'.toNat
      if n ≥ maxUint64 / 10 + 1 then
        (maxVal, some (rangeError "ParseUint" s0))
      else
        let n10 := (n * 10) % 2 ^ 64
        let n1 := (n10 + d) % 2 ^ 64
        if n1 < n10 ∨ n1 > maxVal then
          (maxVal, some (rangeError "ParseUint" s0))
        else
          ParseUint.loop s0 maxVal n1 cs
    else
      (0, some (syntaxError "ParseUint" s0))

/-- `strconv.ParseUint(s, 10, bitSize)`, `s` given as its characters. -/
def ParseUint (s : List Char) (bitSize : Nat) : Nat × Option NumError :=
  let s0 := String.mk s
  if s = [] then
    (0, some (syntaxError "ParseUint" s0))
  else if bitSize > 64 then
    (0, some (bitSizeError "ParseUint" s0 bitSize))
  else
    let bitSize := if bitSize = 0 then IntSize else bitSize
    let maxVal := (2 ^ bitSize - 1) % 2 ^ 64
    ParseUint.loop s0 maxVal 0 s

/-- Conversion `int64(u)` of a `uint64`: two's complement reinterpretation. -/
def toInt64 (u : Nat) : Int :=
  if u % 2 ^ 64 < 2 ^ 63 then (u % 2 ^ 64 : Nat) else ((u % 2 ^ 64 : Nat) : Int) - 2 ^ 64

/-- Negation of an `int64`, wrapping. -/
def negInt64 (n : Int) : Int :=
  (-n + 2 ^ 63) % 2 ^ 64 - 2 ^ 63

/-- `strconv.ParseInt(s, 10, bitSize)`. -/
def ParseInt (s : String) (bitSize : Nat) : Int × Option NumError :=
  match s.toList with
  | [] => (0, some (syntaxError "ParseInt" s))
  | c :: cs =>
    let neg := c = '-'
    let rest := if c = '+' then cs else if c = '-' then cs else c :: cs
    let r := ParseUint rest bitSize
    match r.2 with
    | some ⟨_, _, .ErrSyntax⟩ => (0, some ⟨"ParseInt", s, .ErrSyntax⟩)
    | some ⟨_, _, .BitSize b⟩ => (0, some ⟨"ParseInt", s, .BitSize b⟩)
    | _ =>
      let un := r.1
      let bitSize := if bitSize = 0 then IntSize else bitSize
      let cutoff := 2 ^ (bitSize - 1) % 2 ^ 64
      if ¬ neg ∧ un ≥ cutoff then
        (toInt64 (cutoff - 1), some (rangeError "ParseInt" s))
      else if neg ∧ un > cutoff then
        (negInt64 (toInt64 cutoff), some (rangeError "ParseInt" s))
      else
        let n := toInt64 un
        (if neg then negInt64 n else n, none)

/-- `reflect.Value.SetInt` stores `x` truncated to the width of the kind. -/
def SetInt (k : IntKind) (x : Int) : Int :=
  (x + 2 ^ (k.Bits - 1)) % 2 ^ k.Bits - 2 ^ (k.Bits - 1)

/-! ## The loader -/

/-- What one run of the field loop leaves behind: the struct's fields after the
assignments, the `errs` slice, and the environment variables looked up. -/
structure Outcome where
  fields : Fields
  errs : List GoError
  lookups : List String

/-- What handling one field leaves behind: the field's value, the errors
appended to `errs`, and the environment variables looked up. -/
structure Step where
  value : Value
  errs : List GoError
  lookups : List String

/-- `getEnv`: the string to load into the field, or `ErrEmptyValue`; with the
variables looked up on the way. -/
def getEnv (environ : Environ) (v : StructField) : Except GoError String × List String :=
  match StructTag.Lookup v.Tag envTag with
  | none => (.ok "", [])
  | some envKey =>
    if envKey = "" then
      (.ok "", [])
    else
      let envValue := Getenv environ envKey
      if envValue ≠ "" then
        (.ok envValue, [envKey])
      else
        let defValue := StructTag.Get v.Tag envDefaultTag
        if defValue ≠ "" then
          (.ok defValue, [envKey])
        else
          (.error (.ErrEmptyValue v.Name envKey), [envKey])

/-- The `switch field.Type.Kind()` of `parse`, reached with the resolved string
`env` for a field that is not a struct. -/
def setField (field : StructField) (fieldValue : Value) (env : String) : Value × List GoError :=
  match fieldValue with
  | .str _ => (.str env, [])
  | .bool b =>
    match ParseBool env with
    | (_, some err) => (.bool b, [.ErrParseErr field.Name field.Typ err])
    | (value, none) => (.bool value, [])
  | .int k n =>
    match ParseInt env k.Bits with
    | (_, some err) => (.int k n, [.ErrParseErr field.Name field.Typ err])
    | (value, none) => (.int k (SetInt k value), [])
  | v => (v, [.unsupportedType field.Typ field.Name])

mutual
/-- The body of the loop of `parse` for one field: skip a field that cannot be
set, recurse into a struct, otherwise resolve and assign. The recursive call
`parse(fieldValue)` is the loop over the nested fields followed by
`errors.Join`, written out here. -/
def parseField (environ : Environ) (field : StructField) (fieldValue : Value) : Step :=
  if ¬ field.CanSet then
    ⟨fieldValue, [], []⟩
  else
    match fieldValue with
    | .struct fs =>
      let r := parseLoop environ fs
      match errorsJoin r.errs with
      | some err => ⟨.struct r.fields, [err], r.lookups⟩
      | none => ⟨.struct r.fields, [], r.lookups⟩
    | v =>
      match getEnv environ field with
      | (.error err, ls) => ⟨v, [err], ls⟩
      | (.ok env, ls) =>
        let r := setField field v env
        ⟨r.1, r.2, ls⟩
/-- The loop of `parse` over the fields in declaration order. -/
def parseLoop (environ : Environ) : Fields → Outcome
  | [] => ⟨[], [], []⟩
  | (field, fieldValue) :: rest =>
    let s := parseField environ field fieldValue
    let r := parseLoop environ rest
    ⟨(field, s.value) :: r.fields, s.errs ++ r.errs, s.lookups ++ r.lookups⟩
end

/-- What a call leaves behind: the argument after the call (its pointee
mutated in place), the returned error, the environment variables looked up. -/
structure Result where
  cfg : Option Value
  err : Option GoError
  lookups : List String

/-- `parse` on a struct value: the loop, then `errors.Join(errs...)`. -/
def parse (environ : Environ) (refValue : Fields) : Fields × Option GoError × List String :=
  let r := parseLoop environ refValue
  (r.fields, errorsJoin r.errs, r.lookups)

/-- `getRefValue`: the struct behind a non-nil pointer, else `ErrNotStructPtr`.
The nil interface is `none`: `reflect.ValueOf(nil)` has kind `Invalid`. -/
def getRefValue (cfg : Option Value) : Except GoError Fields :=
  match cfg with
  | some (.ptr (some (.struct fs))) => .ok fs
  | _ => .error .ErrNotStructPtr

/-- `Parse`. -/
def Parse (environ : Environ) (cfg : Option Value) : Result :=
  match getRefValue cfg with
  | .error err => ⟨cfg, some err, []⟩
  | .ok refValue =>
    let r := parse environ refValue
    ⟨some (.ptr (some (.struct r.1))), r.2.1, r.2.2⟩

/-! ## Vocabulary of the specification -/

/-- A non-nil pointer to a struct with the given fields, as passed to `Parse`. -/
def structPtr (fs : Fields) : Option Value := some (.ptr (some (.struct fs)))

/-- The entries of an error set: none for nil, the wrapped slice for a joined
error, the error itself otherwise. -/
def entries : Option GoError → List GoError
  | none => []
  | some (.joinError errs) => errs
  | some e => [e]

/-- The value of a string of decimal digits, most significant digit first. -/
def decimalValue (ds : List Char) : Nat :=
  ds.foldl (fun a c => 10 * a + (c.toNat - '0'.toNat)) 0

/-- The value of one or more decimal digits; `none` for anything else. -/
def digitsValue (ds : List Char) : Option Nat :=
  if ds ≠ [] ∧ ds.all (fun c => decide ('0'.toNat ≤ c.toNat ∧ c.toNat ≤ '9'.toNat)) = true then
    some (decimalValue ds)
  else
    none

/-- The value of one or more decimal digits under a sign. -/
def signedValue (neg : Bool) (ds : List Char) : Option Int :=
  match digitsValue ds with
  | some u => some (if neg then - Int.ofNat u else Int.ofNat u)
  | none => none

/-- The value of a base-10 numeral: an optional sign followed by one or more
decimal digits; `none` when the string is not such a numeral. -/
def numeralValue (s : String) : Option Int :=
  match s.toList with
  | [] => none
  | c :: cs =>
    if c = '+' then signedValue false cs
    else if c = '-' then signedValue true cs
    else signedValue false (c :: cs)

/-- The range of a two's complement integer of `w` bits. -/
def inRange (w : Nat) (n : Int) : Prop :=
  - (2 : Int) ^ (w - 1) ≤ n ∧ n ≤ (2 : Int) ^ (w - 1) - 1

instance (w : Nat) (n : Int) : Decidable (inRange w n) := by
  unfold inRange
  infer_instance

/-- Coercion of a resolved string to the type of a field holding `old`: text
is taken verbatim, a boolean is read by `ParseBool`, a signed integer by
`ParseInt` at the field's width; `none` when the string does not coerce or the
type is not one of the three. -/
def coerce (old : Value) (s : String) : Option Value :=
  match old with
  | .str _ => some (.str s)
  | .bool _ =>
    match ParseBool s with
    | (b, none) => some (.bool b)
    | _ => none
  | .int k _ =>
    match ParseInt s k.Bits with
    | (n, none) => some (.int k n)
    | _ => none
  | _ => none

/-- Whether a value is a struct. -/
def Value.isStruct : Value → Bool
  | .struct _ => true
  | _ => false

/-- The fields of the struct behind a pointer; none for any other value. -/
def fieldsOf : Option Value → Fields
  | some (.ptr (some (.struct fs))) => fs
  | _ => []

mutual
/-- The failures below one error, depth first: a joined error stands for the
failures below its entries, any other error for itself. -/
def GoError.leaves : GoError → List GoError
  | .joinError errs => GoError.leavesList errs
  | e => [e]
/-- The failures below the errors of a slice, in order. -/
def GoError.leavesList : List GoError → List GoError
  | [] => []
  | e :: es => e.leaves ++ GoError.leavesList es
end

/-- The failures below a returned error; none for nil. -/
def leaves : Option GoError → List GoError
  | none => []
  | some e => e.leaves

/-- The failure of one settable field that is not a struct: the resolution
failure, else the coercion failure or the unsupported type; empty when the
field loads. -/
def fieldFailure (environ : Environ) (f : StructField) (v : Value) : List GoError :=
  match (getEnv environ f).1 with
  | .error err => [err]
  | .ok s => (setField f v s).2

mutual
/-- The failures of one field: none when it cannot be set, those of its own
fields when it is a struct, its own failure otherwise. -/
def fieldFailures (environ : Environ) (f : StructField) (v : Value) : List GoError :=
  if ¬ f.CanSet then []
  else
    match v with
    | .struct fs => failures environ fs
    | w => fieldFailure environ f w
/-- The per-field failures of a whole traversal, in declaration order, the
fields of a nested struct in the place of that struct. -/
def failures (environ : Environ) : Fields → List GoError
  | [] => []
  | (f, v) :: rest => fieldFailures environ f v ++ failures environ rest
end

/-- Whether a settable field that is not a struct fails: its resolution fails,
the resolved string does not coerce to its type, or its type is unsupported. -/
def fails (environ : Environ) (f : StructField) (v : Value) : Bool :=
  match (getEnv environ f).1 with
  | .error _ => true
  | .ok s =>
    match v with
    | .str _ => false
    | .bool _ => (ParseBool s).2.isSome
    | .int k _ => (ParseInt s k.Bits).2.isSome
    | _ => true

mutual
/-- Whether the field, or a settable field below it, fails. -/
def fieldFails (environ : Environ) (f : StructField) (v : Value) : Bool :=
  if ¬ f.CanSet then false
  else
    match v with
    | .struct fs => anyFieldFails environ fs
    | w => fails environ f w
/-- Whether a settable field at any nesting depth fails. -/
def anyFieldFails (environ : Environ) : Fields → Bool
  | [] => false
  | (f, v) :: rest => fieldFails environ f v || anyFieldFails environ rest
end

/-- Equality of two strings when letter case is ignored. -/
def equalFold (s t : String) : Bool :=
  s.toList.map Char.toLower == t.toList.map Char.toLower

/-- The entries one field contributes to the error set of its record: none when
the field cannot be set; for a nested struct the error `Parse` returns on that
struct alone, as one entry (none when it is nil); for any other field its own
failure. -/
def ownEntries (environ : Environ) (f : StructField) (v : Value) : List GoError :=
  if ¬ f.CanSet then []
  else
    match v with
    | .struct inner => (Parse environ (structPtr inner)).err.toList
    | w => fieldFailure environ f w

/-! ## Lemmas on the loop -/

theorem parseLoop_nil (environ : Environ) : parseLoop environ [] = ⟨[], [], []⟩ := by
  simp [parseLoop]

theorem parseLoop_cons (environ : Environ) (x : StructField × Value) (rest : Fields) :
    parseLoop environ (x :: rest) =
      ⟨(x.1, (parseField environ x.1 x.2).value) :: (parseLoop environ rest).fields,
       (parseField environ x.1 x.2).errs ++ (parseLoop environ rest).errs,
       (parseField environ x.1 x.2).lookups ++ (parseLoop environ rest).lookups⟩ := by
  obtain ⟨f, v⟩ := x
  simp [parseLoop]

theorem parseLoop_fields (environ : Environ) (fs : Fields) :
    (parseLoop environ fs).fields =
      fs.map (fun x => (x.1, (parseField environ x.1 x.2).value)) := by
  induction fs with
  | nil => simp [parseLoop_nil]
  | cons x rest ih => simp [parseLoop_cons, ih]

theorem parseLoop_append (environ : Environ) (a b : Fields) :
    parseLoop environ (a ++ b) =
      ⟨(parseLoop environ a).fields ++ (parseLoop environ b).fields,
       (parseLoop environ a).errs ++ (parseLoop environ b).errs,
       (parseLoop environ a).lookups ++ (parseLoop environ b).lookups⟩ := by
  induction a with
  | nil => simp [parseLoop_nil]
  | cons x rest ih => simp [parseLoop_cons, ih]

theorem parseField_struct (environ : Environ) (f : StructField) (fs : Fields)
    (h : f.CanSet = true) :
    parseField environ f (.struct fs) =
      ⟨.struct (parseLoop environ fs).fields, (errorsJoin (parseLoop environ fs).errs).toList,
        (parseLoop environ fs).lookups⟩ := by
  rw [parseField]
  simp [h]
  cases h2 : errorsJoin (parseLoop environ fs).errs <;> simp

theorem parseField_skip (environ : Environ) (f : StructField) (v : Value)
    (h : f.CanSet = false) :
    parseField environ f v = ⟨v, [], []⟩ := by
  cases v <;> simp [parseField, h]

theorem parseField_leaf (environ : Environ) (f : StructField) (v : Value)
    (h : f.CanSet = true) (hv : v.isStruct = false) :
    parseField environ f v =
      match getEnv environ f with
      | (.error err, ls) => ⟨v, [err], ls⟩
      | (.ok env, ls) => ⟨(setField f v env).1, (setField f v env).2, ls⟩ := by
  rw [parseField]
  simp [h]
  cases v <;> simp_all [Value.isStruct]

/-! ## Lemmas on `strconv` -/

theorem loop_step (s0 : String) (M : Nat) (hM : M < 2 ^ 64) (c : Char) (cs : List Char) (n : Nat)
    (hd : '0'.toNat ≤ c.toNat ∧ c.toNat ≤ '9'.toNat)
    (hv : 10 * n + (c.toNat - '0'.toNat) ≤ M) :
    ParseUint.loop s0 M n (c :: cs) = ParseUint.loop s0 M (10 * n + (c.toNat - '0'.toNat)) cs := by
  have hn : ¬ n ≥ maxUint64 / 10 + 1 := by simp only [maxUint64]; omega
  have e2 : n * 10 % 2 ^ 64 = 10 * n := by omega
  have e1 : (10 * n + (c.toNat - '0'.toNat)) % 2 ^ 64 = 10 * n + (c.toNat - '0'.toNat) := by omega
  rw [ParseUint.loop]
  dsimp only
  rw [if_pos hd, if_neg hn, e2, e1, if_neg (by omega)]

theorem loop_step_inv (s0 : String) (M : Nat) (c : Char) (cs : List Char)
    (n m : Nat) (h : ParseUint.loop s0 M n (c :: cs) = (m, none)) :
    ('0'.toNat ≤ c.toNat ∧ c.toNat ≤ '9'.toNat) ∧ 10 * n + (c.toNat - '0'.toNat) ≤ M ∧
      ParseUint.loop s0 M (10 * n + (c.toNat - '0'.toNat)) cs = (m, none) := by
  rw [ParseUint.loop] at h
  dsimp only at h
  split at h
  · rename_i hd
    split at h
    · simp at h
    · rename_i hn
      split at h
      · simp at h
      · rename_i hr
        simp only [maxUint64] at hn
        have h0 : '0'.toNat = 48 := rfl
        have h9 : '9'.toNat = 57 := rfl
        have e1 : (n * 10 % 2 ^ 64 + (c.toNat - '0'.toNat)) % 2 ^ 64
            = 10 * n + (c.toNat - '0'.toNat) := by omega
        rw [e1] at h hr
        exact ⟨hd, by omega, h⟩
  · simp at h

theorem loop_err (s0 : String) (M : Nat) (cs : List Char) (n u : Nat) (e : NumError)
    (h : ParseUint.loop s0 M n cs = (u, some e)) :
    e.Err = .ErrSyntax ∨ (e.Err = .ErrRange ∧ u = M) := by
  induction cs generalizing n with
  | nil => simp [ParseUint.loop] at h
  | cons c cs ih =>
    rw [ParseUint.loop] at h
    dsimp only at h
    split at h
    · split at h
      · simp only [Prod.mk.injEq, Option.some.injEq] at h
        right
        rw [← h.2, ← h.1]
        exact ⟨rfl, rfl⟩
      · split at h
        · simp only [Prod.mk.injEq, Option.some.injEq] at h
          right
          rw [← h.2, ← h.1]
          exact ⟨rfl, rfl⟩
        · exact ih _ h
    · simp only [Prod.mk.injEq, Option.some.injEq] at h
      left
      rw [← h.2]
      rfl

theorem foldl_acc_le (cs : List Char) (a : Nat) :
    a ≤ cs.foldl (fun a c => 10 * a + (c.toNat - '0'.toNat)) a := by
  induction cs generalizing a with
  | nil => simp
  | cons c cs ih =>
    simp only [List.foldl_cons]
    exact le_trans (by omega) (ih _)

theorem loop_ok (s0 : String) (M : Nat) (hM : M < 2 ^ 64) (cs : List Char) (n : Nat)
    (hd : cs.all (fun c => decide ('0'.toNat ≤ c.toNat ∧ c.toNat ≤ '9'.toNat)) = true)
    (hv : cs.foldl (fun a c => 10 * a + (c.toNat - '0'.toNat)) n ≤ M) :
    ParseUint.loop s0 M n cs = (cs.foldl (fun a c => 10 * a + (c.toNat - '0'.toNat)) n, none) := by
  induction cs generalizing n with
  | nil => simp [ParseUint.loop]
  | cons c cs ih =>
    simp only [List.all_cons, Bool.and_eq_true, decide_eq_true_eq] at hd
    simp only [List.foldl_cons] at hv ⊢
    have h1 := foldl_acc_le cs (10 * n + (c.toNat - '0'.toNat))
    rw [loop_step s0 M hM c cs n hd.1 (le_trans h1 hv)]
    exact ih _ hd.2 hv

theorem loop_sound (s0 : String) (M : Nat) (cs : List Char) (n m : Nat)
    (h : ParseUint.loop s0 M n cs = (m, none)) :
    cs.all (fun c => decide ('0'.toNat ≤ c.toNat ∧ c.toNat ≤ '9'.toNat)) = true ∧
      m = cs.foldl (fun a c => 10 * a + (c.toNat - '0'.toNat)) n ∧ (cs ≠ [] → m ≤ M) := by
  induction cs generalizing n with
  | nil => simp_all [ParseUint.loop]
  | cons c cs ih =>
    obtain ⟨hd, hle, h2⟩ := loop_step_inv s0 M c cs n m h
    obtain ⟨a1, a2, a3⟩ := ih _ h2
    refine ⟨?_, ?_, ?_⟩
    · simp only [List.all_cons, Bool.and_eq_true, decide_eq_true_eq]
      exact ⟨hd, a1⟩
    · simpa using a2
    · intro _
      by_cases hcs : cs = []
      · subst hcs
        simp only [ParseUint.loop, Prod.mk.injEq, and_true] at h2
        omega
      · exact a3 hcs


theorem IntKind.Bits_cases (k : IntKind) :
    k.Bits = 8 ∨ k.Bits = 16 ∨ k.Bits = 32 ∨ k.Bits = 64 := by
  cases k <;> simp [IntKind.Bits, IntSize]

theorem ParseUint_ok (k : IntKind) (ds : List Char) (u : Nat) (h : digitsValue ds = some u)
    (hu : u ≤ 2 ^ k.Bits - 1) : ParseUint ds k.Bits = (u, none) := by
  unfold digitsValue at h
  split at h
  · rename_i hd
    simp only [Option.some.injEq] at h
    subst h
    unfold ParseUint
    have hb := IntKind.Bits_cases k
    have h64 : ¬ k.Bits > 64 := by omega
    have h0 : ¬ k.Bits = 0 := by omega
    simp only [hd.1, if_false, h64, h0]
    have hM : (2 ^ k.Bits - 1) % 2 ^ 64 = 2 ^ k.Bits - 1 := by
      rcases hb with hb | hb | hb | hb <;> rw [hb] <;> norm_num
    rw [hM]
    have hlt : 2 ^ k.Bits - 1 < 2 ^ 64 := by
      rcases hb with hb | hb | hb | hb <;> rw [hb] <;> norm_num
    exact loop_ok _ _ hlt ds 0 hd.2 hu
  · simp at h

theorem ParseUint_sound (k : IntKind) (ds : List Char) (u : Nat)
    (h : ParseUint ds k.Bits = (u, none)) :
    digitsValue ds = some u ∧ u ≤ 2 ^ k.Bits - 1 := by
  unfold ParseUint at h
  have hb := IntKind.Bits_cases k
  have h64 : ¬ k.Bits > 64 := by omega
  have h0 : ¬ k.Bits = 0 := by omega
  have hM : (2 ^ k.Bits - 1) % 2 ^ 64 = 2 ^ k.Bits - 1 := by
    rcases hb with hb | hb | hb | hb <;> rw [hb] <;> norm_num
  by_cases hnil : ds = []
  · simp [hnil] at h
  · simp only [hnil, if_false, h64, h0, hM] at h
    obtain ⟨a1, a2, a3⟩ := loop_sound _ _ ds 0 u h
    refine ⟨?_, a3 hnil⟩
    unfold digitsValue
    rw [if_pos ⟨hnil, a1⟩, a2]
    rfl

theorem ParseUint_err (k : IntKind) (ds : List Char) (u : Nat) (e : NumError)
    (h : ParseUint ds k.Bits = (u, some e)) :
    e.Err = .ErrSyntax ∨ (e.Err = .ErrRange ∧ u = 2 ^ k.Bits - 1) := by
  unfold ParseUint at h
  have hb := IntKind.Bits_cases k
  have h64 : ¬ k.Bits > 64 := by omega
  have h0 : ¬ k.Bits = 0 := by omega
  have hM : (2 ^ k.Bits - 1) % 2 ^ 64 = 2 ^ k.Bits - 1 := by
    rcases hb with hb | hb | hb | hb <;> rw [hb] <;> norm_num
  by_cases hnil : ds = []
  · simp only [hnil, if_true, Prod.mk.injEq, Option.some.injEq] at h
    left
    rw [← h.2]
    rfl
  · simp only [hnil, if_false, h64, h0, hM] at h
    exact loop_err _ _ ds 0 u e h


/-- The tail of `ParseInt` once the sign is picked off and `ParseUint` has run. -/
theorem ParseInt_cons (s : String) (c : Char) (cs : List Char) (w : Nat)
    (hs : s.toList = c :: cs) :
    ParseInt s w =
      (match (ParseUint (if c = '+' then cs else if c = '-' then cs else c :: cs) w).2 with
      | some ⟨_, _, .ErrSyntax⟩ => (0, some ⟨"ParseInt", s, .ErrSyntax⟩)
      | some ⟨_, _, .BitSize b⟩ => (0, some ⟨"ParseInt", s, .BitSize b⟩)
      | _ =>
        if ¬ c = '-' ∧ (ParseUint (if c = '+' then cs else if c = '-' then cs else c :: cs) w).1
            ≥ 2 ^ ((if w = 0 then IntSize else w) - 1) % 2 ^ 64 then
          (toInt64 (2 ^ ((if w = 0 then IntSize else w) - 1) % 2 ^ 64 - 1),
            some (rangeError "ParseInt" s))
        else if c = '-' ∧ (ParseUint (if c = '+' then cs else if c = '-' then cs else c :: cs) w).1
            > 2 ^ ((if w = 0 then IntSize else w) - 1) % 2 ^ 64 then
          (negInt64 (toInt64 (2 ^ ((if w = 0 then IntSize else w) - 1) % 2 ^ 64)),
            some (rangeError "ParseInt" s))
        else
          (if c = '-' then negInt64 (toInt64
              (ParseUint (if c = '+' then cs else if c = '-' then cs else c :: cs) w).1)
            else toInt64 (ParseUint (if c = '+' then cs else if c = '-' then cs else c :: cs) w).1,
            none)) := by
  unfold ParseInt
  rw [hs]

theorem ParseInt_finish_ok (s : String) (c : Char) (cs rest : List Char) (k : IntKind) (u : Nat)
    (hs : s.toList = c :: cs)
    (hrest : (if c = '+' then cs else if c = '-' then cs else c :: cs) = rest)
    (hu : ParseUint rest k.Bits = (u, none))
    (hr : inRange k.Bits (if c = '-' then - (u : Int) else (u : Int))) :
    ParseInt s k.Bits = (if c = '-' then - (u : Int) else (u : Int), none) := by
  rw [ParseInt_cons s c cs k.Bits hs, hrest, hu]
  have hb := IntKind.Bits_cases k
  unfold inRange at hr
  dsimp only
  have h0 : ¬ k.Bits = 0 := by omega
  simp only [h0, if_false]
  by_cases hc : c = '-'
  · simp only [hc, if_true, not_true_eq_false, false_and, true_and] at hr ⊢
    have e1 : toInt64 u = u ∨ (k.Bits = 64 ∧ u = 2 ^ 63 ∧ toInt64 u = - 2 ^ 63) := by
      unfold toInt64
      rcases hb with hb | hb | hb | hb <;> rw [hb] at hr <;> norm_num at hr <;>
        split_ifs <;> omega
    have e2 : ¬ u > 2 ^ (k.Bits - 1) % 2 ^ 64 := by
      rcases hb with hb | hb | hb | hb <;> rw [hb] at hr ⊢ <;> norm_num at hr ⊢ <;> omega
    rw [if_neg e2]
    have e3 : negInt64 (toInt64 u) = - (u : Int) := by
      unfold negInt64
      rcases e1 with e1 | ⟨_, e1, e1'⟩
      · rw [e1]
        rcases hb with hb | hb | hb | hb <;> rw [hb] at hr <;> norm_num at hr <;> omega
      · rw [e1', e1]
        norm_num
    rw [e3]
    simp
  · simp only [hc, if_false, not_false_eq_true, true_and, false_and] at hr ⊢
    have e2 : ¬ u ≥ 2 ^ (k.Bits - 1) % 2 ^ 64 := by
      rcases hb with hb | hb | hb | hb <;> rw [hb] at hr ⊢ <;> norm_num at hr ⊢ <;> omega
    rw [if_neg e2]
    have e1 : toInt64 u = u := by
      unfold toInt64
      rcases hb with hb | hb | hb | hb <;> rw [hb] at hr <;> norm_num at hr <;>
        split_ifs <;> omega
    rw [e1]


theorem numeralValue_nil (s : String) (hs : s.toList = []) : numeralValue s = none := by
  unfold numeralValue
  rw [hs]

theorem numeralValue_cons (s : String) (c : Char) (cs : List Char) (hs : s.toList = c :: cs) :
    numeralValue s =
      if c = '+' then signedValue false cs
      else if c = '-' then signedValue true cs
      else signedValue false (c :: cs) := by
  unfold numeralValue
  rw [hs]

theorem signedValue_some (neg : Bool) (ds : List Char) (n : Int)
    (h : signedValue neg ds = some n) :
    ∃ u : Nat, digitsValue ds = some u ∧ n = if neg then - (u : Int) else (u : Int) := by
  unfold signedValue at h
  cases hd : digitsValue ds with
  | none => simp [hd] at h
  | some u =>
    simp only [hd, Option.some.injEq] at h
    exact ⟨u, rfl, by rw [← h]; rfl⟩

theorem ParseInt_numeral (k : IntKind) (s : String) (n : Int)
    (hn : numeralValue s = some n) (hr : inRange k.Bits n) :
    ParseInt s k.Bits = (n, none) := by
  cases hs : s.toList with
  | nil => simp [numeralValue_nil s hs] at hn
  | cons c cs =>
    rw [numeralValue_cons s c cs hs] at hn
    have hb := IntKind.Bits_cases k
    have hrange : ∀ u : Nat, inRange k.Bits (u : Int) ∨ inRange k.Bits (- (u : Int)) →
        u ≤ 2 ^ k.Bits - 1 := by
      intro u hu
      unfold inRange at hu
      rcases hb with hb | hb | hb | hb <;> rw [hb] at hu ⊢ <;> norm_num at hu ⊢ <;> omega
    by_cases hp : c = '+'
    · have hm : ¬ c = '-' := by rw [hp]; decide
      rw [if_pos hp] at hn
      obtain ⟨u, hu, rfl⟩ := signedValue_some _ _ _ hn
      have := ParseInt_finish_ok s c cs cs k u hs (by simp [hp])
        (ParseUint_ok k cs u hu (hrange u (Or.inl (by simpa using hr)))) (by simpa [hm] using hr)
      simpa [hm] using this
    · by_cases hm : c = '-'
      · rw [if_neg hp, if_pos hm] at hn
        obtain ⟨u, hu, rfl⟩ := signedValue_some _ _ _ hn
        have := ParseInt_finish_ok s c cs cs k u hs (by simp [hp, hm])
          (ParseUint_ok k cs u hu (hrange u (Or.inr (by simpa using hr)))) (by simpa [hm] using hr)
        simpa [hm] using this
      · rw [if_neg hp, if_neg hm] at hn
        obtain ⟨u, hu, rfl⟩ := signedValue_some _ _ _ hn
        have := ParseInt_finish_ok s c cs (c :: cs) k u hs (by simp [hp, hm])
          (ParseUint_ok k (c :: cs) u hu (hrange u (Or.inl (by simpa using hr))))
          (by simpa [hm] using hr)
        simpa [hm] using this


theorem ParseInt_nil (s : String) (w : Nat) (hs : s.toList = []) :
    ParseInt s w = (0, some (syntaxError "ParseInt" s)) := by
  unfold ParseInt
  rw [hs]

theorem signedValue_of (neg : Bool) (ds : List Char) (u : Nat) (h : digitsValue ds = some u) :
    signedValue neg ds = some (if neg then - (u : Int) else (u : Int)) := by
  unfold signedValue
  rw [h]
  rfl

theorem ParseInt_finish_sound (s : String) (c : Char) (cs rest : List Char) (k : IntKind)
    (n : Int) (hs : s.toList = c :: cs)
    (hrest : (if c = '+' then cs else if c = '-' then cs else c :: cs) = rest)
    (h : ParseInt s k.Bits = (n, none)) :
    ∃ u : Nat, digitsValue rest = some u ∧ n = (if c = '-' then - (u : Int) else (u : Int)) ∧
      inRange k.Bits n := by
  rw [ParseInt_cons s c cs k.Bits hs, hrest] at h
  have hb := IntKind.Bits_cases k
  have h0 : ¬ k.Bits = 0 := by omega
  simp only [h0, if_false] at h
  rcases hu : ParseUint rest k.Bits with ⟨u, e⟩
  rw [hu] at h
  dsimp only at h
  cases e with
  | none =>
    obtain ⟨hd, hle⟩ := ParseUint_sound k rest u hu
    refine ⟨u, hd, ?_⟩
    dsimp only at h
    by_cases hc : c = '-'
    · simp only [hc, if_true, not_true_eq_false, false_and, true_and, if_false] at h ⊢
      split at h
      · simp at h
      · rename_i hgt
        simp only [Prod.mk.injEq, and_true] at h
        unfold inRange
        unfold negInt64 toInt64 at h
        rcases hb with hb | hb | hb | hb <;> rw [hb] at hgt hle ⊢ <;>
          norm_num at hgt hle ⊢ <;> split_ifs at h <;> omega
    · simp only [hc, if_false, not_false_eq_true, true_and, false_and] at h ⊢
      split at h
      · simp at h
      · rename_i hge
        simp only [Prod.mk.injEq, and_true] at h
        unfold inRange
        unfold toInt64 at h
        rcases hb with hb | hb | hb | hb <;> rw [hb] at hge hle ⊢ <;>
          norm_num at hge hle ⊢ <;> split_ifs at h <;> omega
  | some e =>
    exfalso
    obtain ⟨fn, num, cause⟩ := e
    rcases ParseUint_err k rest u _ hu with he | ⟨he, hmax⟩
    · simp only at he
      subst he
      simp at h
    · simp only at he
      subst he
      dsimp only at h
      by_cases hc : c = '-'
      · simp only [hc, if_true, not_true_eq_false, false_and, true_and, if_false] at h
        split at h
        · simp at h
        · rename_i hgt
          rcases hb with hb | hb | hb | hb <;> rw [hb] at hgt hmax <;>
            norm_num at hgt hmax <;> omega
      · simp only [hc, if_false, not_false_eq_true, true_and, false_and] at h
        split at h
        · simp at h
        · rename_i hge
          rcases hb with hb | hb | hb | hb <;> rw [hb] at hge hmax <;>
            norm_num at hge hmax <;> omega

theorem ParseInt_sound (k : IntKind) (s : String) (n : Int)
    (h : ParseInt s k.Bits = (n, none)) :
    numeralValue s = some n ∧ inRange k.Bits n := by
  cases hs : s.toList with
  | nil => simp [ParseInt_nil s k.Bits hs] at h
  | cons c cs =>
    rw [numeralValue_cons s c cs hs]
    by_cases hp : c = '+'
    · have hm : ¬ c = '-' := by rw [hp]; decide
      obtain ⟨u, hd, hn, hr⟩ := ParseInt_finish_sound s c cs cs k n hs (by simp [hp]) h
      rw [if_pos hp, signedValue_of false cs u hd]
      simp only [hm, if_false] at hn
      exact ⟨by simp [hn], hr⟩
    · by_cases hm : c = '-'
      · obtain ⟨u, hd, hn, hr⟩ := ParseInt_finish_sound s c cs cs k n hs (by simp [hp, hm]) h
        rw [if_neg hp, if_pos hm, signedValue_of true cs u hd]
        simp only [hm, if_true] at hn
        exact ⟨by simp [hn], hr⟩
      · obtain ⟨u, hd, hn, hr⟩ :=
          ParseInt_finish_sound s c cs (c :: cs) k n hs (by simp [hp, hm]) h
        rw [if_neg hp, if_neg hm, signedValue_of false (c :: cs) u hd]
        simp only [hm, if_false] at hn
        exact ⟨by simp [hn], hr⟩

theorem SetInt_of_inRange (k : IntKind) (n : Int) (h : inRange k.Bits n) : SetInt k n = n := by
  unfold SetInt
  unfold inRange at h
  rcases IntKind.Bits_cases k with hb | hb | hb | hb <;> rw [hb] at h ⊢ <;>
    norm_num at h ⊢ <;> omega


/-! ## Lemmas on resolution and assignment -/

theorem getEnv_env (environ : Environ) (f : StructField) (k s : String)
    (hkey : StructTag.Lookup f.Tag envTag = some k) (hk : k ≠ "")
    (hv : Getenv environ k = s) (hs : s ≠ "") :
    getEnv environ f = (.ok s, [k]) := by
  unfold getEnv
  rw [hkey]
  simp [hk, hv, hs]

theorem getEnv_default (environ : Environ) (f : StructField) (k d : String)
    (hkey : StructTag.Lookup f.Tag envTag = some k) (hk : k ≠ "")
    (hv : Getenv environ k = "") (hd : StructTag.Get f.Tag envDefaultTag = d) (hdne : d ≠ "") :
    getEnv environ f = (.ok d, [k]) := by
  unfold getEnv
  rw [hkey]
  simp [hk, hv, hd, hdne]

theorem getEnv_missing (environ : Environ) (f : StructField) (k : String)
    (hkey : StructTag.Lookup f.Tag envTag = some k) (hk : k ≠ "")
    (hv : Getenv environ k = "") (hd : StructTag.Get f.Tag envDefaultTag = "") :
    getEnv environ f = (.error (.ErrEmptyValue f.Name k), [k]) := by
  unfold getEnv
  rw [hkey]
  simp [hk, hv, hd]

theorem setField_of_coerce (f : StructField) (old new : Value) (s : String)
    (h : coerce old s = some new) :
    old.isStruct = false ∧ setField f old s = (new, []) := by
  cases old with
  | str o =>
    simp only [coerce, Option.some.injEq] at h
    subst h
    exact ⟨rfl, rfl⟩
  | bool b =>
    refine ⟨rfl, ?_⟩
    simp only [coerce] at h
    simp only [setField]
    rcases hp : ParseBool s with ⟨v, e⟩
    rw [hp] at h
    cases e with
    | none =>
      simp only [Option.some.injEq] at h
      rw [← h]
    | some e => simp at h
  | int k n =>
    refine ⟨rfl, ?_⟩
    simp only [coerce] at h
    simp only [setField]
    rcases hp : ParseInt s k.Bits with ⟨v, e⟩
    rw [hp] at h
    cases e with
    | none =>
      simp only [Option.some.injEq] at h
      simp only [← h, SetInt_of_inRange k v (ParseInt_sound k s v hp).2]
    | some e => simp at h
  | struct fs => simp [coerce] at h
  | ptr e => simp [coerce] at h
  | other k c => simp [coerce] at h

theorem entries_errorsJoin (errs : List GoError) : entries (errorsJoin errs) = errs := by
  cases errs <;> rfl

theorem Parse_structPtr (environ : Environ) (fs : Fields) :
    Parse environ (structPtr fs) =
      ⟨structPtr (parseLoop environ fs).fields, errorsJoin (parseLoop environ fs).errs,
        (parseLoop environ fs).lookups⟩ := rfl

theorem Parse_entries (environ : Environ) (fs : Fields) :
    entries (Parse environ (structPtr fs)).err = (parseLoop environ fs).errs := by
  rw [Parse_structPtr]
  exact entries_errorsJoin _

/-- The field at position `i` after the call is the field handled on its own. -/
theorem Parse_field (environ : Environ) (fs : Fields) (i : Nat) (f : StructField) (v : Value)
    (hi : fs[i]? = some (f, v)) :
    (fieldsOf (Parse environ (structPtr fs)).cfg)[i]? =
      some (f, (parseField environ f v).value) := by
  rw [Parse_structPtr]
  simp only [structPtr, fieldsOf]
  rw [parseLoop_fields, List.getElem?_map, hi]
  rfl

/-- The entries of the error set are those of the fields before position `i`,
those of field `i`, and those of the fields after it. -/
theorem Parse_entries_split (environ : Environ) (fs : Fields) (i : Nat) (f : StructField)
    (v : Value) (hi : fs[i]? = some (f, v)) :
    entries (Parse environ (structPtr fs)).err =
      entries (Parse environ (structPtr (fs.take i))).err ++ (parseField environ f v).errs ++
        entries (Parse environ (structPtr (fs.drop (i + 1)))).err := by
  simp only [Parse_entries]
  have hlt : i < fs.length := by
    rcases Nat.lt_or_ge i fs.length with h | h
    · exact h
    · rw [List.getElem?_eq_none h] at hi
      cases hi
  have hget : fs[i] = (f, v) := by
    rw [List.getElem?_eq_getElem hlt] at hi
    exact Option.some.inj hi
  have hsplit : fs = fs.take i ++ (f, v) :: fs.drop (i + 1) := by
    rw [← hget, ← List.drop_eq_getElem_cons hlt, List.take_append_drop]
  conv_lhs => rw [hsplit]
  rw [parseLoop_append, parseLoop_cons]
  simp

theorem parseField_ok (environ : Environ) (f : StructField) (old new : Value) (s : String)
    (ls : List String) (hset : f.CanSet = true) (hres : getEnv environ f = (.ok s, ls))
    (hco : coerce old s = some new) :
    parseField environ f old = ⟨new, [], ls⟩ := by
  obtain ⟨hns, hsf⟩ := setField_of_coerce f old new s hco
  rw [parseField_leaf environ f old hset hns, hres]
  simp [hsf]

theorem parseField_missing (environ : Environ) (f : StructField) (old : Value) (e : GoError)
    (ls : List String) (hset : f.CanSet = true) (hns : old.isStruct = false)
    (hres : getEnv environ f = (.error e, ls)) :
    parseField environ f old = ⟨old, [e], ls⟩ := by
  rw [parseField_leaf environ f old hset hns, hres]


/-! ## Claims -/

/-- C1: a settable field of type string, bool or signed int that declares a
non-empty lookup key under which the environment holds a non-empty value that
coerces to the field's type holds exactly that coercion after `Parse`,
whatever default literal the tag declares. -/
theorem C1_env_value_assigned (environ : Environ) (fs : Fields) (i : Nat) (f : StructField)
    (old new : Value) (k s : String)
    (hi : fs[i]? = some (f, old)) (hset : f.CanSet = true)
    (hkey : StructTag.Lookup f.Tag envTag = some k) (hk : k ≠ "")
    (hv : Getenv environ k = s) (hs : s ≠ "") (hco : coerce old s = some new) :
    (fieldsOf (Parse environ (structPtr fs)).cfg)[i]? = some (f, new) := by
  rw [Parse_field environ fs i f old hi,
    parseField_ok environ f old new s [k] hset (getEnv_env environ f k s hkey hk hv hs) hco]

theorem C1_env_value_assigned_witness :
    (fieldsOf (Parse [("PORT", "8080")] (structPtr
      [(⟨"AppName", true, "string", [("env", "APP_NAME")]⟩, .str ""),
       (⟨"Port", true, "int", [("env", "PORT"), ("env_default", "9090")]⟩,
         .int .Int 0)])).cfg)[1]? =
      some (⟨"Port", true, "int", [("env", "PORT"), ("env_default", "9090")]⟩,
        .int .Int 8080) :=
  C1_env_value_assigned [("PORT", "8080")] _ 1 _ (.int .Int 0) (.int .Int 8080) "PORT" "8080"
    rfl rfl rfl (by decide) rfl (by decide) rfl

/-- C2: a settable field of a supported type with a non-empty lookup key that
the environment leaves unset or empty, and a non-empty default literal that
coerces to the field's type, holds the coercion of the default after `Parse`,
and the error set has no entry for it: its entries are those of the fields
before it followed by those of the fields after it. -/
theorem C2_default_assigned (environ : Environ) (fs : Fields) (i : Nat) (f : StructField)
    (old new : Value) (k d : String)
    (hi : fs[i]? = some (f, old)) (hset : f.CanSet = true)
    (hkey : StructTag.Lookup f.Tag envTag = some k) (hk : k ≠ "")
    (hv : Getenv environ k = "") (hd : StructTag.Get f.Tag envDefaultTag = d) (hdne : d ≠ "")
    (hco : coerce old d = some new) :
    (fieldsOf (Parse environ (structPtr fs)).cfg)[i]? = some (f, new) ∧
      entries (Parse environ (structPtr fs)).err =
        entries (Parse environ (structPtr (fs.take i))).err ++
          entries (Parse environ (structPtr (fs.drop (i + 1)))).err := by
  have hp := parseField_ok environ f old new d [k] hset
    (getEnv_default environ f k d hkey hk hv hd hdne) hco
  constructor
  · rw [Parse_field environ fs i f old hi, hp]
  · rw [Parse_entries_split environ fs i f old hi, hp]
    simp

theorem C2_default_assigned_witness :
    (fieldsOf (Parse [] (structPtr
      [(⟨"AppName", true, "string", [("env", "APP_NAME"), ("env_default", "placeholder")]⟩,
        .str "")])).cfg)[0]? =
      some (⟨"AppName", true, "string", [("env", "APP_NAME"), ("env_default", "placeholder")]⟩,
        .str "placeholder") ∧
    entries (Parse [] (structPtr
      [(⟨"AppName", true, "string", [("env", "APP_NAME"), ("env_default", "placeholder")]⟩,
        .str "")])).err =
      entries (Parse [] (structPtr [])).err ++ entries (Parse [] (structPtr [])).err :=
  C2_default_assigned [] _ 0 _ (.str "") (.str "placeholder") "APP_NAME" "placeholder"
    rfl rfl rfl (by decide) rfl rfl (by decide) rfl

/-- C3: a settable field that is not a struct, with a non-empty lookup key
that the environment leaves unset or empty and no default literal, makes
`Parse` return a non-nil error whose entries are those of the fields before
it, then one `ErrEmptyValue` with the field's name and key, then those of the
fields after it; the field keeps its value. -/
theorem C3_missing_required (environ : Environ) (fs : Fields) (i : Nat) (f : StructField)
    (old : Value) (k : String)
    (hi : fs[i]? = some (f, old)) (hset : f.CanSet = true) (hns : old.isStruct = false)
    (hkey : StructTag.Lookup f.Tag envTag = some k) (hk : k ≠ "")
    (hv : Getenv environ k = "") (hd : StructTag.Get f.Tag envDefaultTag = "") :
    (Parse environ (structPtr fs)).err ≠ none ∧
      entries (Parse environ (structPtr fs)).err =
        entries (Parse environ (structPtr (fs.take i))).err ++
          [GoError.ErrEmptyValue f.Name k] ++
          entries (Parse environ (structPtr (fs.drop (i + 1)))).err ∧
      (fieldsOf (Parse environ (structPtr fs)).cfg)[i]? = some (f, old) := by
  have hp := parseField_missing environ f old _ [k] hset hns
    (getEnv_missing environ f k hkey hk hv hd)
  have hsplit := Parse_entries_split environ fs i f old hi
  rw [hp] at hsplit
  refine ⟨?_, hsplit, ?_⟩
  · intro hnil
    rw [hnil] at hsplit
    simp [entries] at hsplit
  · rw [Parse_field environ fs i f old hi, hp]

theorem C3_missing_required_witness :
    (Parse [] (structPtr [(⟨"AppName", true, "string", [("env", "APP_NAME")]⟩, .str "")])).err
        ≠ none ∧
      entries (Parse [] (structPtr
          [(⟨"AppName", true, "string", [("env", "APP_NAME")]⟩, .str "")])).err =
        entries (Parse [] (structPtr [])).err ++ [GoError.ErrEmptyValue "AppName" "APP_NAME"] ++
          entries (Parse [] (structPtr [])).err ∧
      (fieldsOf (Parse [] (structPtr
          [(⟨"AppName", true, "string", [("env", "APP_NAME")]⟩, .str "")])).cfg)[0]? =
        some (⟨"AppName", true, "string", [("env", "APP_NAME")]⟩, .str "") :=
  C3_missing_required [] [(⟨"AppName", true, "string", [("env", "APP_NAME")]⟩, .str "")] 0
    ⟨"AppName", true, "string", [("env", "APP_NAME")]⟩ (.str "") "APP_NAME"
    rfl rfl rfl rfl (by decide) rfl rfl

/-- C4: `Parse` returns `ErrNotStructPtr` exactly when its argument is not a
non-nil pointer to a struct; in that case the argument is left as it was and
no environment variable is looked up; in the other case the result is that of
the traversal `parse` of the struct's fields. -/
theorem C4_not_struct_ptr (environ : Environ) (cfg : Option Value) :
    ((Parse environ cfg).err = some GoError.ErrNotStructPtr ↔ ¬ ∃ fs, cfg = structPtr fs) ∧
      ((¬ ∃ fs, cfg = structPtr fs) →
        (Parse environ cfg).cfg = cfg ∧ (Parse environ cfg).lookups = []) ∧
      (∀ fs, cfg = structPtr fs →
        (Parse environ cfg).cfg = structPtr (parse environ fs).1 ∧
        (Parse environ cfg).err = (parse environ fs).2.1 ∧
        (Parse environ cfg).lookups = (parse environ fs).2.2) := by
  have hbad : (¬ ∃ fs, cfg = structPtr fs) →
      Parse environ cfg = ⟨cfg, some GoError.ErrNotStructPtr, []⟩ := by
    intro h
    have hg : getRefValue cfg = .error GoError.ErrNotStructPtr := by
      unfold getRefValue
      split
      · rename_i fs
        exact absurd ⟨fs, rfl⟩ h
      · rfl
    unfold Parse
    rw [hg]
  refine ⟨⟨?_, ?_⟩, ?_, ?_⟩
  · rintro h ⟨fs, rfl⟩
    rw [Parse_structPtr] at h
    cases hj : (parseLoop environ fs).errs with
    | nil => simp [hj, errorsJoin] at h
    | cons e es => simp [hj, errorsJoin] at h
  · intro h
    rw [hbad h]
  · intro h
    rw [hbad h]
    exact ⟨rfl, rfl⟩
  · rintro fs rfl
    exact ⟨rfl, rfl, rfl⟩


theorem ParseInt_error_of_not_numeral (k : IntKind) (s : String)
    (h : ¬ ∃ n, numeralValue s = some n ∧ inRange k.Bits n) :
    ∃ v cause, ParseInt s k.Bits = (v, some cause) := by
  rcases hp : ParseInt s k.Bits with ⟨v, e⟩
  cases e with
  | none => exact absurd ⟨v, ParseInt_sound k s v hp⟩ h
  | some cause => exact ⟨v, cause, rfl⟩

/-- C5: for a settable signed integer field of any kind (width 8, 16, 32 or
64) and resolved string `s`: when `s` is a base-10 numeral whose value `n` is
in the range of the width, `Parse` assigns `n` and records no error for the
field; otherwise it records one `ErrParseErr` naming the field and leaves the
field unchanged. -/
theorem C5_int_coercion (environ : Environ) (fs : Fields) (i : Nat) (f : StructField)
    (k : IntKind) (old : Int) (s : String) (ls : List String)
    (hi : fs[i]? = some (f, .int k old)) (hset : f.CanSet = true)
    (hres : getEnv environ f = (.ok s, ls)) :
    (k.Bits = 8 ∨ k.Bits = 16 ∨ k.Bits = 32 ∨ k.Bits = 64) ∧
    (∀ n, numeralValue s = some n → inRange k.Bits n →
      (fieldsOf (Parse environ (structPtr fs)).cfg)[i]? = some (f, .int k n) ∧
      entries (Parse environ (structPtr fs)).err =
        entries (Parse environ (structPtr (fs.take i))).err ++
          entries (Parse environ (structPtr (fs.drop (i + 1)))).err) ∧
    ((¬ ∃ n, numeralValue s = some n ∧ inRange k.Bits n) →
      ∃ cause,
        entries (Parse environ (structPtr fs)).err =
          entries (Parse environ (structPtr (fs.take i))).err ++
            [GoError.ErrParseErr f.Name f.Typ cause] ++
            entries (Parse environ (structPtr (fs.drop (i + 1)))).err ∧
        (fieldsOf (Parse environ (structPtr fs)).cfg)[i]? = some (f, .int k old)) := by
  refine ⟨IntKind.Bits_cases k, ?_, ?_⟩
  · intro n hn hr
    have hco : coerce (.int k old) s = some (.int k n) := by
      simp only [coerce, ParseInt_numeral k s n hn hr]
    have hp := parseField_ok environ f (.int k old) (.int k n) s ls hset hres hco
    constructor
    · rw [Parse_field environ fs i f _ hi, hp]
    · rw [Parse_entries_split environ fs i f _ hi, hp]
      simp
  · intro hnot
    obtain ⟨v, cause, hpi⟩ := ParseInt_error_of_not_numeral k s hnot
    have hp : parseField environ f (.int k old) =
        ⟨.int k old, [GoError.ErrParseErr f.Name f.Typ cause], ls⟩ := by
      rw [parseField_leaf environ f (.int k old) hset rfl, hres]
      simp only [setField, hpi]
    refine ⟨cause, ?_, ?_⟩
    · rw [Parse_entries_split environ fs i f _ hi, hp]
    · rw [Parse_field environ fs i f _ hi, hp]

theorem C5_int_coercion_witness :
    (IntKind.Int8.Bits = 8 ∨ IntKind.Int8.Bits = 16 ∨ IntKind.Int8.Bits = 32 ∨
      IntKind.Int8.Bits = 64) ∧
    (∀ n, numeralValue "-128" = some n → inRange IntKind.Int8.Bits n →
      (fieldsOf (Parse [("LEVEL", "-128")] (structPtr
        [(⟨"Level", true, "int8", [("env", "LEVEL")]⟩, .int .Int8 0)])).cfg)[0]? =
          some (⟨"Level", true, "int8", [("env", "LEVEL")]⟩, .int .Int8 n) ∧
      entries (Parse [("LEVEL", "-128")] (structPtr
        [(⟨"Level", true, "int8", [("env", "LEVEL")]⟩, .int .Int8 0)])).err =
        entries (Parse [("LEVEL", "-128")] (structPtr [])).err ++
          entries (Parse [("LEVEL", "-128")] (structPtr [])).err) ∧
    ((¬ ∃ n, numeralValue "-128" = some n ∧ inRange IntKind.Int8.Bits n) →
      ∃ cause,
        entries (Parse [("LEVEL", "-128")] (structPtr
          [(⟨"Level", true, "int8", [("env", "LEVEL")]⟩, .int .Int8 0)])).err =
          entries (Parse [("LEVEL", "-128")] (structPtr [])).err ++
            [GoError.ErrParseErr "Level" "int8" cause] ++
            entries (Parse [("LEVEL", "-128")] (structPtr [])).err ∧
        (fieldsOf (Parse [("LEVEL", "-128")] (structPtr
          [(⟨"Level", true, "int8", [("env", "LEVEL")]⟩, .int .Int8 0)])).cfg)[0]? =
            some (⟨"Level", true, "int8", [("env", "LEVEL")]⟩, .int .Int8 0)) :=
  C5_int_coercion [("LEVEL", "-128")]
    [(⟨"Level", true, "int8", [("env", "LEVEL")]⟩, .int .Int8 0)] 0
    ⟨"Level", true, "int8", [("env", "LEVEL")]⟩ .Int8 0 "-128" ["LEVEL"] rfl rfl rfl


/-- C6, as stated, fails: `tRuE` equals `true` when letter case is ignored,
yet `ParseBool` rejects it, so `Parse` records an `ErrParseErr` for the field
and leaves it unchanged. -/
theorem C6_mixed_case_rejected :
    equalFold "tRuE" "true" = true ∧
    getEnv [("DEBUG", "tRuE")] ⟨"Debug", true, "bool", [("env", "DEBUG")]⟩ =
      (.ok "tRuE", ["DEBUG"]) ∧
    entries (Parse [("DEBUG", "tRuE")] (structPtr
      [(⟨"Debug", true, "bool", [("env", "DEBUG")]⟩, .bool false)])).err =
      [GoError.ErrParseErr "Debug" "bool" ⟨"ParseBool", "tRuE", .ErrSyntax⟩] ∧
    (fieldsOf (Parse [("DEBUG", "tRuE")] (structPtr
      [(⟨"Debug", true, "bool", [("env", "DEBUG")]⟩, .bool false)])).cfg)[0]? =
      some (⟨"Debug", true, "bool", [("env", "DEBUG")]⟩, .bool false) :=
  ⟨by decide, rfl, rfl, rfl⟩

theorem ParseBool_rejects (s : String)
    (hfold : equalFold s "true" = true ∨ equalFold s "false" = true)
    (hs : s ∉ ["true", "TRUE", "True", "false", "FALSE", "False"]) :
    ParseBool s = (false, some (syntaxError "ParseBool" s)) := by
  simp only [List.mem_cons, List.mem_singleton, List.not_mem_nil, or_false, not_or] at hs
  obtain ⟨h1, h2, h3, h4, h5, h6⟩ := hs
  have n1 : s ≠ "1" := by
    rintro rfl
    revert hfold
    decide
  have n2 : s ≠ "t" := by
    rintro rfl
    revert hfold
    decide
  have n3 : s ≠ "T" := by
    rintro rfl
    revert hfold
    decide
  have n4 : s ≠ "0" := by
    rintro rfl
    revert hfold
    decide
  have n5 : s ≠ "f" := by
    rintro rfl
    revert hfold
    decide
  have n6 : s ≠ "F" := by
    rintro rfl
    revert hfold
    decide
  simp only [ParseBool, h1, h2, h3, h4, h5, h6, n1, n2, n3, n4, n5, n6, or_self, if_false]

/-- C6, amended: for a settable boolean field and a resolved string `s`: when
`s` is `true` or `false` written all in lower case, all in upper case or
capitalised, `Parse` assigns the corresponding truth value and records no
error for the field; when `s` equals `true` or `false` with letter case
ignored but is written in any other mix of cases, `Parse` records one
`ErrParseErr` for the field, with the syntax error of `ParseBool`, and leaves
the field unchanged. -/
theorem C6_bool_coercion (environ : Environ) (fs : Fields) (i : Nat) (f : StructField)
    (old : Bool) (s : String) (ls : List String)
    (hi : fs[i]? = some (f, .bool old)) (hset : f.CanSet = true)
    (hres : getEnv environ f = (.ok s, ls)) :
    (s ∈ ["true", "TRUE", "True", "false", "FALSE", "False"] →
      (fieldsOf (Parse environ (structPtr fs)).cfg)[i]? =
          some (f, .bool (decide (s ∈ ["true", "TRUE", "True"]))) ∧
        entries (Parse environ (structPtr fs)).err =
          entries (Parse environ (structPtr (fs.take i))).err ++
            entries (Parse environ (structPtr (fs.drop (i + 1)))).err) ∧
    ((equalFold s "true" = true ∨ equalFold s "false" = true) →
      s ∉ ["true", "TRUE", "True", "false", "FALSE", "False"] →
      entries (Parse environ (structPtr fs)).err =
          entries (Parse environ (structPtr (fs.take i))).err ++
            [GoError.ErrParseErr f.Name f.Typ ⟨"ParseBool", s, .ErrSyntax⟩] ++
            entries (Parse environ (structPtr (fs.drop (i + 1)))).err ∧
        (fieldsOf (Parse environ (structPtr fs)).cfg)[i]? = some (f, .bool old)) := by
  constructor
  · intro hs
    have hco : coerce (.bool old) s = some (.bool (decide (s ∈ ["true", "TRUE", "True"]))) := by
      simp only [List.mem_cons, List.mem_singleton, List.not_mem_nil, or_false] at hs
      rcases hs with h | h | h | h | h | h <;> subst h <;> rfl
    have hp := parseField_ok environ f (.bool old) _ s ls hset hres hco
    constructor
    · rw [Parse_field environ fs i f _ hi, hp]
    · rw [Parse_entries_split environ fs i f _ hi, hp]
      simp
  · intro hfold hs
    have hp : parseField environ f (.bool old) =
        ⟨.bool old, [GoError.ErrParseErr f.Name f.Typ ⟨"ParseBool", s, .ErrSyntax⟩], ls⟩ := by
      rw [parseField_leaf environ f (.bool old) hset rfl, hres]
      simp only [setField, ParseBool_rejects s hfold hs]
      rfl
    constructor
    · rw [Parse_entries_split environ fs i f _ hi, hp]
    · rw [Parse_field environ fs i f _ hi, hp]

theorem C6_bool_coercion_witness :
    ((fieldsOf (Parse [("DEBUG", "TRUE")] (structPtr
      [(⟨"Debug", true, "bool", [("env", "DEBUG")]⟩, .bool false)])).cfg)[0]? =
        some (⟨"Debug", true, "bool", [("env", "DEBUG")]⟩,
          .bool (decide ("TRUE" ∈ ["true", "TRUE", "True"]))) ∧
      entries (Parse [("DEBUG", "TRUE")] (structPtr
        [(⟨"Debug", true, "bool", [("env", "DEBUG")]⟩, .bool false)])).err =
        entries (Parse [("DEBUG", "TRUE")] (structPtr [])).err ++
          entries (Parse [("DEBUG", "TRUE")] (structPtr [])).err) ∧
    (entries (Parse [("DEBUG", "fALSE")] (structPtr
        [(⟨"Debug", true, "bool", [("env", "DEBUG")]⟩, .bool true)])).err =
        entries (Parse [("DEBUG", "fALSE")] (structPtr [])).err ++
          [GoError.ErrParseErr "Debug" "bool" ⟨"ParseBool", "fALSE", .ErrSyntax⟩] ++
          entries (Parse [("DEBUG", "fALSE")] (structPtr [])).err ∧
      (fieldsOf (Parse [("DEBUG", "fALSE")] (structPtr
        [(⟨"Debug", true, "bool", [("env", "DEBUG")]⟩, .bool true)])).cfg)[0]? =
        some (⟨"Debug", true, "bool", [("env", "DEBUG")]⟩, .bool true)) :=
  ⟨(C6_bool_coercion [("DEBUG", "TRUE")]
      [(⟨"Debug", true, "bool", [("env", "DEBUG")]⟩, .bool false)] 0
      ⟨"Debug", true, "bool", [("env", "DEBUG")]⟩ false "TRUE" ["DEBUG"] rfl rfl rfl).1
      (by decide),
   (C6_bool_coercion [("DEBUG", "fALSE")]
      [(⟨"Debug", true, "bool", [("env", "DEBUG")]⟩, .bool true)] 0
      ⟨"Debug", true, "bool", [("env", "DEBUG")]⟩ true "fALSE" ["DEBUG"] rfl rfl rfl).2
      (by decide) (by decide)⟩

/-- C7, at fields that declare no lookup key: an `int` field makes `Parse`
return an `ErrParseErr` (the empty string is handed to `ParseInt`), a `bool`
field likewise, a map field an unsupported type error, and a string field
holding `x` is overwritten with the empty string. -/
theorem C7_untagged_field_not_inert :
    entries (Parse [] (structPtr [(⟨"Port", true, "int", []⟩, .int .Int 0)])).err =
      [GoError.ErrParseErr "Port" "int" ⟨"ParseInt", "", .ErrSyntax⟩] ∧
    entries (Parse [] (structPtr [(⟨"Debug", true, "bool", []⟩, .bool false)])).err =
      [GoError.ErrParseErr "Debug" "bool" ⟨"ParseBool", "", .ErrSyntax⟩] ∧
    entries (Parse [] (structPtr
        [(⟨"Data", true, "map[string]string", []⟩, .other .Map "map[]")])).err =
      [GoError.unsupportedType "map[string]string" "Data"] ∧
    fieldsOf (Parse [] (structPtr [(⟨"Name", true, "string", []⟩, .str "x")])).cfg =
      [(⟨"Name", true, "string", []⟩, .str "")] ∧
    (Parse [] (structPtr [(⟨"Port", true, "int", []⟩, .int .Int 0)])).lookups = [] :=
  ⟨rfl, rfl, rfl, rfl, rfl⟩


/-! ## Lemmas on the error tree -/

theorem leavesList_append (a b : List GoError) :
    GoError.leavesList (a ++ b) = GoError.leavesList a ++ GoError.leavesList b := by
  induction a with
  | nil => simp [GoError.leavesList]
  | cons e es ih => simp [GoError.leavesList, ih]

theorem leaves_errorsJoin (errs : List GoError) :
    leaves (errorsJoin errs) = GoError.leavesList errs := by
  cases errs with
  | nil => simp [errorsJoin, leaves, GoError.leavesList]
  | cons e es => simp [errorsJoin, leaves, GoError.leaves]

theorem leavesList_toList (e : Option GoError) :
    GoError.leavesList e.toList = leaves e := by
  cases e <;> simp [leaves, GoError.leavesList, Option.toList]

theorem getEnv_error (environ : Environ) (f : StructField) (e : GoError) (ls : List String)
    (h : getEnv environ f = (.error e, ls)) : ∃ k, e = .ErrEmptyValue f.Name k := by
  unfold getEnv at h
  split at h
  · simp at h
  · rename_i envKey _
    split at h
    · simp at h
    · dsimp only at h
      split at h
      · simp at h
      · split at h
        · simp at h
        · simp only [Prod.mk.injEq, Except.error.injEq] at h
          exact ⟨envKey, h.1.symm⟩

theorem setField_errs (f : StructField) (v : Value) (s : String) (hns : v.isStruct = false) :
    (setField f v s).2 = [] ∨ (∃ cause, (setField f v s).2 = [.ErrParseErr f.Name f.Typ cause]) ∨
      (setField f v s).2 = [.unsupportedType f.Typ f.Name] := by
  cases v with
  | str o => left; rfl
  | bool b =>
    simp only [setField]
    rcases ParseBool s with ⟨x, e⟩
    cases e with
    | none => left; rfl
    | some c => right; left; exact ⟨c, rfl⟩
  | int k n =>
    simp only [setField]
    rcases ParseInt s k.Bits with ⟨x, e⟩
    cases e with
    | none => left; rfl
    | some c => right; left; exact ⟨c, rfl⟩
  | struct fs => simp [Value.isStruct] at hns
  | ptr e => right; right; rfl
  | other k c => right; right; rfl

theorem parseField_leaf_errs (environ : Environ) (f : StructField) (v : Value)
    (hset : f.CanSet = true) (hns : v.isStruct = false) :
    (parseField environ f v).errs = fieldFailure environ f v := by
  rw [parseField_leaf environ f v hset hns]
  unfold fieldFailure
  rcases getEnv environ f with ⟨r, ls⟩
  cases r <;> rfl

theorem leavesList_fieldFailure (environ : Environ) (f : StructField) (v : Value)
    (hns : v.isStruct = false) :
    GoError.leavesList (fieldFailure environ f v) = fieldFailure environ f v := by
  unfold fieldFailure
  rcases hg : getEnv environ f with ⟨r, ls⟩
  cases r with
  | error e =>
    obtain ⟨k, rfl⟩ := getEnv_error environ f e ls hg
    simp [GoError.leavesList, GoError.leaves]
  | ok s =>
    dsimp only
    rcases setField_errs f v s hns with h | ⟨c, h⟩ | h <;> rw [h] <;>
      simp [GoError.leavesList, GoError.leaves]

theorem fieldFailures_leaf (environ : Environ) (f : StructField) (v : Value)
    (hset : f.CanSet = true) (hns : v.isStruct = false) :
    fieldFailures environ f v = fieldFailure environ f v := by
  cases v <;> simp_all [fieldFailures, Value.isStruct]

theorem leaves_leaf (environ : Environ) (f : StructField) (v : Value)
    (hns : v.isStruct = false) :
    GoError.leavesList (parseField environ f v).errs = fieldFailures environ f v := by
  cases hset : f.CanSet with
  | false =>
    rw [parseField_skip environ f v hset]
    cases v <;> simp [fieldFailures, hset, GoError.leavesList]
  | true =>
    rw [parseField_leaf_errs environ f v hset hns, fieldFailures_leaf environ f v hset hns,
      leavesList_fieldFailure environ f v hns]

mutual
theorem leaves_parseField (environ : Environ) :
    (f : StructField) → (v : Value) →
      GoError.leavesList (parseField environ f v).errs = fieldFailures environ f v
  | f, .struct fs => by
    cases hset : f.CanSet with
    | false =>
      rw [parseField_skip environ f _ hset]
      simp [fieldFailures, hset, GoError.leavesList]
    | true =>
      rw [parseField_struct environ f fs hset]
      simp only [leavesList_toList, leaves_errorsJoin]
      rw [leaves_parseLoop environ fs]
      simp [fieldFailures, hset]
  | f, .str s => leaves_leaf environ f _ rfl
  | f, .bool b => leaves_leaf environ f _ rfl
  | f, .int k n => leaves_leaf environ f _ rfl
  | f, .ptr e => leaves_leaf environ f _ rfl
  | f, .other k c => leaves_leaf environ f _ rfl
theorem leaves_parseLoop (environ : Environ) :
    (fs : Fields) → GoError.leavesList (parseLoop environ fs).errs = failures environ fs
  | [] => by simp [parseLoop_nil, failures, GoError.leavesList]
  | (f, v) :: rest => by
    rw [parseLoop_cons]
    simp only [leavesList_append]
    rw [leaves_parseField environ f v, leaves_parseLoop environ rest]
    simp [failures]
end


theorem fails_iff (environ : Environ) (f : StructField) (v : Value) (hns : v.isStruct = false) :
    fails environ f v = !(fieldFailure environ f v).isEmpty := by
  unfold fails fieldFailure
  rcases getEnv environ f with ⟨r, ls⟩
  cases r with
  | error e => rfl
  | ok s =>
    dsimp only
    cases v with
    | str o => rfl
    | bool b =>
      simp only [setField]
      rcases ParseBool s with ⟨x, e⟩
      cases e <;> rfl
    | int k n =>
      simp only [setField]
      rcases ParseInt s k.Bits with ⟨x, e⟩
      cases e <;> rfl
    | struct fs => simp [Value.isStruct] at hns
    | ptr e => rfl
    | other k c => rfl

theorem isEmpty_append_not (a b : List GoError) :
    (!(a ++ b).isEmpty) = (!a.isEmpty || !b.isEmpty) := by
  cases a <;> cases b <;> rfl

theorem fieldFails_leaf (environ : Environ) (f : StructField) (v : Value)
    (hns : v.isStruct = false) :
    fieldFails environ f v = !(parseField environ f v).errs.isEmpty := by
  cases hset : f.CanSet with
  | false =>
    rw [parseField_skip environ f v hset]
    cases v <;> simp [fieldFails, hset]
  | true =>
    rw [parseField_leaf_errs environ f v hset hns, ← fails_iff environ f v hns]
    cases v <;> simp_all [fieldFails, Value.isStruct]

mutual
theorem fieldFails_parseField (environ : Environ) :
    (f : StructField) → (v : Value) →
      fieldFails environ f v = !(parseField environ f v).errs.isEmpty
  | f, .struct fs => by
    cases hset : f.CanSet with
    | false =>
      rw [parseField_skip environ f _ hset]
      simp [fieldFails, hset]
    | true =>
      rw [parseField_struct environ f fs hset]
      have ih := anyFieldFails_parseLoop environ fs
      simp only [fieldFails, hset, ih]
      cases (parseLoop environ fs).errs <;> rfl
  | f, .str s => fieldFails_leaf environ f _ rfl
  | f, .bool b => fieldFails_leaf environ f _ rfl
  | f, .int k n => fieldFails_leaf environ f _ rfl
  | f, .ptr e => fieldFails_leaf environ f _ rfl
  | f, .other k c => fieldFails_leaf environ f _ rfl
theorem anyFieldFails_parseLoop (environ : Environ) :
    (fs : Fields) → anyFieldFails environ fs = !(parseLoop environ fs).errs.isEmpty
  | [] => by simp [parseLoop_nil, anyFieldFails]
  | (f, v) :: rest => by
    rw [parseLoop_cons]
    simp only [isEmpty_append_not]
    rw [← fieldFails_parseField environ f v, ← anyFieldFails_parseLoop environ rest]
    simp [anyFieldFails]
end

theorem fails_unchanged (environ : Environ) (f : StructField) (v : Value)
    (hset : f.CanSet = true) (hns : v.isStruct = false) (hf : fails environ f v = true) :
    (parseField environ f v).value = v := by
  rw [parseField_leaf environ f v hset hns]
  unfold fails at hf
  rcases hg : getEnv environ f with ⟨r, ls⟩
  rw [hg] at hf
  cases r with
  | error e => rfl
  | ok s =>
    dsimp only at hf ⊢
    cases v with
    | str o => simp at hf
    | bool b =>
      simp only [setField]
      rcases hp : ParseBool s with ⟨x, e⟩
      simp only [hp] at hf
      cases e with
      | none => simp at hf
      | some c => rfl
    | int k n =>
      simp only [setField]
      rcases hp : ParseInt s k.Bits with ⟨x, e⟩
      simp only [hp] at hf
      cases e with
      | none => simp at hf
      | some c => rfl
    | struct fs => simp [Value.isStruct] at hns
    | ptr e => rfl
    | other k c => rfl

/-- C8, as stated, fails: a nested struct with two failing fields contributes
one entry to the error set returned by the top-level call, a joined error
wrapping the two failures, not two entries. -/
theorem C8_nested_errors_not_flat :
    failures []
      [(⟨"Database", true, "struct", []⟩, .struct
        [(⟨"Host", true, "string", [("env", "DB_HOST")]⟩, .str ""),
         (⟨"Port", true, "int", [("env", "DB_PORT")]⟩, .int .Int 0)])] =
      [GoError.ErrEmptyValue "Host" "DB_HOST", GoError.ErrEmptyValue "Port" "DB_PORT"] ∧
    entries (Parse [] (structPtr
      [(⟨"Database", true, "struct", []⟩, .struct
        [(⟨"Host", true, "string", [("env", "DB_HOST")]⟩, .str ""),
         (⟨"Port", true, "int", [("env", "DB_PORT")]⟩, .int .Int 0)])])).err =
      [GoError.joinError
        [GoError.ErrEmptyValue "Host" "DB_HOST", GoError.ErrEmptyValue "Port" "DB_PORT"]] :=
  ⟨rfl, rfl⟩

theorem parseField_errs_own (environ : Environ) (f : StructField) (v : Value) :
    (parseField environ f v).errs = ownEntries environ f v := by
  cases hset : f.CanSet with
  | false =>
    rw [parseField_skip environ f v hset]
    simp [ownEntries, hset]
  | true =>
    cases v with
    | struct inner =>
      rw [parseField_struct environ f inner hset]
      simp only [ownEntries, hset, Parse_structPtr]
      rfl
    | str o =>
      rw [parseField_leaf_errs environ f (.str o) hset rfl]
      simp [ownEntries, hset]
    | bool b =>
      rw [parseField_leaf_errs environ f (.bool b) hset rfl]
      simp [ownEntries, hset]
    | int k n =>
      rw [parseField_leaf_errs environ f (.int k n) hset rfl]
      simp [ownEntries, hset]
    | ptr e =>
      rw [parseField_leaf_errs environ f (.ptr e) hset rfl]
      simp [ownEntries, hset]
    | other k c =>
      rw [parseField_leaf_errs environ f (.other k c) hset rfl]
      simp [ownEntries, hset]

/-- C8, amended: the error returned by the top-level `Parse` is a tree of
joined errors that follows the nesting of the record. It is nil when there is
no entry and otherwise one joined error over its entries; the entries are, in
declaration order, what each field contributes: nothing for a field that
cannot be set, its own failure for a field that is not a struct, and for a
nested struct the error `Parse` returns on that struct alone, as one entry
(itself nil or a joined error over the nested entries), nothing being left out
because an earlier field failed. The failures below the returned error, read
depth first, are exactly the per-field failures of the whole traversal in
declaration order. -/
theorem C8_error_tree (environ : Environ) (fs : Fields) :
    (Parse environ (structPtr fs)).err = errorsJoin (entries (Parse environ (structPtr fs)).err) ∧
    (fs = [] → entries (Parse environ (structPtr fs)).err = []) ∧
    (∀ before after f v, fs = before ++ (f, v) :: after →
      entries (Parse environ (structPtr fs)).err =
        entries (Parse environ (structPtr before)).err ++ ownEntries environ f v ++
          entries (Parse environ (structPtr after)).err) ∧
    leaves (Parse environ (structPtr fs)).err = failures environ fs := by
  refine ⟨?_, ?_, ?_, ?_⟩
  · rw [Parse_entries]
    rfl
  · rintro rfl
    rfl
  · rintro before after f v rfl
    simp only [Parse_entries]
    rw [parseLoop_append, parseLoop_cons]
    simp only [parseField_errs_own, List.append_assoc]
  · rw [Parse_structPtr]
    simp only [leaves_errorsJoin]
    exact leaves_parseLoop environ fs

/-- C9: on a non-nil pointer to a struct, `Parse` returns nil exactly when no
settable field at any nesting depth fails resolution, fails coercion or has an
unsupported type. -/
theorem C9_nil_iff_no_failure (environ : Environ) (fs : Fields) :
    (Parse environ (structPtr fs)).err = none ↔ anyFieldFails environ fs = false := by
  rw [Parse_structPtr, anyFieldFails_parseLoop environ fs]
  cases (parseLoop environ fs).errs <;> simp [errorsJoin]

/-- C10: when a settable field that is not a struct fails and another
settable field resolves to a string that coerces to its type, whichever is
declared first, the failing field keeps the value it had before the call, the
other holds its coerced value, and the returned error is not nil. -/
theorem C10_partial_failure (environ : Environ) (fs : Fields) (i j : Nat)
    (fi fj : StructField) (oi oj nj : Value) (s : String) (ls : List String)
    (hi : fs[i]? = some (fi, oi)) (hj : fs[j]? = some (fj, oj))
    (hseti : fi.CanSet = true) (hsetj : fj.CanSet = true) (hns : oi.isStruct = false)
    (hfail : fails environ fi oi = true)
    (hres : getEnv environ fj = (.ok s, ls)) (hco : coerce oj s = some nj) :
    (fieldsOf (Parse environ (structPtr fs)).cfg)[i]? = some (fi, oi) ∧
      (fieldsOf (Parse environ (structPtr fs)).cfg)[j]? = some (fj, nj) ∧
      (Parse environ (structPtr fs)).err ≠ none := by
  refine ⟨?_, ?_, ?_⟩
  · rw [Parse_field environ fs i fi oi hi, fails_unchanged environ fi oi hseti hns hfail]
  · rw [Parse_field environ fs j fj oj hj, parseField_ok environ fj oj nj s ls hsetj hres hco]
  · intro hnil
    have hsplit := Parse_entries_split environ fs i fi oi hi
    have hne : (parseField environ fi oi).errs ≠ [] := by
      have := fieldFails_leaf environ fi oi hns
      have hff : fieldFails environ fi oi = true := by
        cases oi <;> simp_all [fieldFails, Value.isStruct]
      rw [hff] at this
      intro h0
      rw [h0] at this
      simp at this
    rw [hnil] at hsplit
    simp only [entries] at hsplit
    cases hpe : (parseField environ fi oi).errs with
    | nil => exact hne hpe
    | cons e es =>
      rw [hpe] at hsplit
      simp at hsplit

theorem C10_partial_failure_witness :
    (fieldsOf (Parse [("PORT", "NaN"), ("APP_NAME", "svc")] (structPtr
      [(⟨"AppName", true, "string", [("env", "APP_NAME")]⟩, .str ""),
       (⟨"Port", true, "int", [("env", "PORT")]⟩, .int .Int 0),
       (⟨"Debug", true, "bool", [("env", "DEBUG"), ("env_default", "true")]⟩,
         .bool false)])).cfg)[1]? =
      some (⟨"Port", true, "int", [("env", "PORT")]⟩, .int .Int 0) ∧
    (fieldsOf (Parse [("PORT", "NaN"), ("APP_NAME", "svc")] (structPtr
      [(⟨"AppName", true, "string", [("env", "APP_NAME")]⟩, .str ""),
       (⟨"Port", true, "int", [("env", "PORT")]⟩, .int .Int 0),
       (⟨"Debug", true, "bool", [("env", "DEBUG"), ("env_default", "true")]⟩,
         .bool false)])).cfg)[2]? =
      some (⟨"Debug", true, "bool", [("env", "DEBUG"), ("env_default", "true")]⟩,
        .bool true) ∧
    (Parse [("PORT", "NaN"), ("APP_NAME", "svc")] (structPtr
      [(⟨"AppName", true, "string", [("env", "APP_NAME")]⟩, .str ""),
       (⟨"Port", true, "int", [("env", "PORT")]⟩, .int .Int 0),
       (⟨"Debug", true, "bool", [("env", "DEBUG"), ("env_default", "true")]⟩,
         .bool false)])).err ≠ none :=
  C10_partial_failure [("PORT", "NaN"), ("APP_NAME", "svc")]
    [(⟨"AppName", true, "string", [("env", "APP_NAME")]⟩, .str ""),
     (⟨"Port", true, "int", [("env", "PORT")]⟩, .int .Int 0),
     (⟨"Debug", true, "bool", [("env", "DEBUG"), ("env_default", "true")]⟩, .bool false)]
    1 2 ⟨"Port", true, "int", [("env", "PORT")]⟩
    ⟨"Debug", true, "bool", [("env", "DEBUG"), ("env_default", "true")]⟩
    (.int .Int 0) (.bool false) (.bool true) "true" ["DEBUG"]
    rfl rfl rfl rfl rfl (by decide) rfl rfl


/-! ## Lemmas on one field within its record -/

theorem Parse_fields (environ : Environ) (fs : Fields) :
    fieldsOf (Parse environ (structPtr fs)).cfg = (parseLoop environ fs).fields := rfl

theorem Parse_lookups (environ : Environ) (fs : Fields) :
    (Parse environ (structPtr fs)).lookups = (parseLoop environ fs).lookups := rfl

theorem Parse_leaves (environ : Environ) (fs : Fields) :
    leaves (Parse environ (structPtr fs)).err = GoError.leavesList (parseLoop environ fs).errs := by
  rw [Parse_structPtr]
  exact leaves_errorsJoin _

theorem parseLoop_around (environ : Environ) (before after : Fields) (f : StructField)
    (v : Value) :
    parseLoop environ (before ++ (f, v) :: after) =
      ⟨(parseLoop environ before).fields ++
          (f, (parseField environ f v).value) :: (parseLoop environ after).fields,
        (parseLoop environ before).errs ++ (parseField environ f v).errs ++
          (parseLoop environ after).errs,
        (parseLoop environ before).lookups ++ (parseField environ f v).lookups ++
          (parseLoop environ after).lookups⟩ := by
  rw [parseLoop_append, parseLoop_cons]
  simp

theorem split_at (fs : Fields) (i : Nat) (f : StructField) (v : Value)
    (hi : fs[i]? = some (f, v)) : fs = fs.take i ++ (f, v) :: fs.drop (i + 1) := by
  have hlt : i < fs.length := by
    rcases Nat.lt_or_ge i fs.length with h | h
    · exact h
    · rw [List.getElem?_eq_none h] at hi
      cases hi
  have hget : fs[i] = (f, v) := by
    rw [List.getElem?_eq_getElem hlt] at hi
    exact Option.some.inj hi
  rw [← hget, ← List.drop_eq_getElem_cons hlt, List.take_append_drop]

theorem Parse_lookups_split (environ : Environ) (fs : Fields) (i : Nat) (f : StructField)
    (v : Value) (hi : fs[i]? = some (f, v)) :
    (Parse environ (structPtr fs)).lookups =
      (Parse environ (structPtr (fs.take i))).lookups ++ (parseField environ f v).lookups ++
        (Parse environ (structPtr (fs.drop (i + 1)))).lookups := by
  simp only [Parse_lookups]
  conv_lhs => rw [split_at fs i f v hi]
  rw [parseLoop_around]

/-- C11: a settable struct field is parsed as `Parse` parses a pointer to it
alone: after the call its fields are those that call leaves, its entry in the
error set is the error that call returns, and the failures below it are that
call's failures; the values and the entries of the other fields are what they
are when the nested struct has no fields. -/
theorem C11_nested_independent (environ : Environ) (before after inner : Fields)
    (f : StructField) (hset : f.CanSet = true) :
    fieldsOf (Parse environ (structPtr (before ++ (f, .struct inner) :: after))).cfg =
        fieldsOf (Parse environ (structPtr before)).cfg ++
          (f, .struct (fieldsOf (Parse environ (structPtr inner)).cfg)) ::
            fieldsOf (Parse environ (structPtr after)).cfg ∧
      entries (Parse environ (structPtr (before ++ (f, .struct inner) :: after))).err =
        entries (Parse environ (structPtr before)).err ++
          (Parse environ (structPtr inner)).err.toList ++
          entries (Parse environ (structPtr after)).err ∧
      leaves (Parse environ (structPtr (before ++ (f, .struct inner) :: after))).err =
        leaves (Parse environ (structPtr before)).err ++
          leaves (Parse environ (structPtr inner)).err ++
          leaves (Parse environ (structPtr after)).err ∧
      fieldsOf (Parse environ (structPtr (before ++ (f, .struct []) :: after))).cfg =
        fieldsOf (Parse environ (structPtr before)).cfg ++
          (f, .struct []) :: fieldsOf (Parse environ (structPtr after)).cfg ∧
      entries (Parse environ (structPtr (before ++ (f, .struct []) :: after))).err =
        entries (Parse environ (structPtr before)).err ++
          entries (Parse environ (structPtr after)).err := by
  have hN := parseField_struct environ f inner hset
  have h0 := parseField_struct environ f [] hset
  rw [parseLoop_nil] at h0
  refine ⟨?_, ?_, ?_, ?_, ?_⟩
  · simp only [Parse_fields, parseLoop_around, hN]
  · have e : (Parse environ (structPtr inner)).err = errorsJoin (parseLoop environ inner).errs :=
      rfl
    simp only [Parse_entries, parseLoop_around, hN, e]
  · simp only [Parse_leaves, parseLoop_around, hN, leavesList_append, leavesList_toList,
      leaves_errorsJoin]
  · simp only [Parse_fields, parseLoop_around, h0]
  · simp only [Parse_entries, parseLoop_around, h0]
    simp [errorsJoin]

theorem C11_nested_independent_witness :
    fieldsOf (Parse [("APP_NAME", "svc"), ("DB_HOST", "127.0.0.1")] (structPtr
      ([(⟨"AppName", true, "string", [("env", "APP_NAME")]⟩, .str "")] ++
        (⟨"Database", true, "struct", []⟩, .struct
          [(⟨"Host", true, "string", [("env", "DB_HOST")]⟩, .str ""),
           (⟨"Port", true, "int", [("env", "DB_PORT")]⟩, .int .Int 0)]) :: []))).cfg =
      [(⟨"AppName", true, "string", [("env", "APP_NAME")]⟩, .str "svc"),
       (⟨"Database", true, "struct", []⟩, .struct
          [(⟨"Host", true, "string", [("env", "DB_HOST")]⟩, .str "127.0.0.1"),
           (⟨"Port", true, "int", [("env", "DB_PORT")]⟩, .int .Int 0)])] ∧
    entries (Parse [("APP_NAME", "svc"), ("DB_HOST", "127.0.0.1")] (structPtr
      ([(⟨"AppName", true, "string", [("env", "APP_NAME")]⟩, .str "")] ++
        (⟨"Database", true, "struct", []⟩, .struct
          [(⟨"Host", true, "string", [("env", "DB_HOST")]⟩, .str ""),
           (⟨"Port", true, "int", [("env", "DB_PORT")]⟩, .int .Int 0)]) :: []))).err =
      [GoError.joinError [GoError.ErrEmptyValue "Port" "DB_PORT"]] :=
  ⟨(C11_nested_independent [("APP_NAME", "svc"), ("DB_HOST", "127.0.0.1")]
      [(⟨"AppName", true, "string", [("env", "APP_NAME")]⟩, .str "")] []
      [(⟨"Host", true, "string", [("env", "DB_HOST")]⟩, .str ""),
       (⟨"Port", true, "int", [("env", "DB_PORT")]⟩, .int .Int 0)]
      ⟨"Database", true, "struct", []⟩ rfl).1,
   (C11_nested_independent [("APP_NAME", "svc"), ("DB_HOST", "127.0.0.1")]
      [(⟨"AppName", true, "string", [("env", "APP_NAME")]⟩, .str "")] []
      [(⟨"Host", true, "string", [("env", "DB_HOST")]⟩, .str ""),
       (⟨"Port", true, "int", [("env", "DB_PORT")]⟩, .int .Int 0)]
      ⟨"Database", true, "struct", []⟩ rfl).2.1⟩


/-- C12: a field the loader cannot set is skipped, whatever its type, tag and
value: it keeps its value, adds no entry to the error set, and no environment
variable is looked up for it (the entries and the lookups of the call are
those of the fields before it followed by those of the fields after it). -/
theorem C12_unexported_skipped (environ : Environ) (fs : Fields) (i : Nat) (f : StructField)
    (v : Value) (hi : fs[i]? = some (f, v)) (hset : f.CanSet = false) :
    (fieldsOf (Parse environ (structPtr fs)).cfg)[i]? = some (f, v) ∧
      entries (Parse environ (structPtr fs)).err =
        entries (Parse environ (structPtr (fs.take i))).err ++
          entries (Parse environ (structPtr (fs.drop (i + 1)))).err ∧
      (Parse environ (structPtr fs)).lookups =
        (Parse environ (structPtr (fs.take i))).lookups ++
          (Parse environ (structPtr (fs.drop (i + 1)))).lookups := by
  have hp := parseField_skip environ f v hset
  refine ⟨?_, ?_, ?_⟩
  · rw [Parse_field environ fs i f v hi, hp]
  · rw [Parse_entries_split environ fs i f v hi, hp]
    simp
  · rw [Parse_lookups_split environ fs i f v hi, hp]
    simp

theorem C12_unexported_skipped_witness :
    (fieldsOf (Parse [] (structPtr
      [(⟨"port", false, "int", [("env", "PORT")]⟩, .int .Int 0),
       (⟨"secret_key", false, "string", [("env", "SECRET_KEY"), ("env_default", "123")]⟩,
         .str ""),
       (⟨"data", false, "map[string]string", [("env", "DATA")]⟩, .other .Map "map[]")])).cfg)[0]?
      = some (⟨"port", false, "int", [("env", "PORT")]⟩, .int .Int 0) ∧
    (Parse [] (structPtr
      [(⟨"port", false, "int", [("env", "PORT")]⟩, .int .Int 0),
       (⟨"secret_key", false, "string", [("env", "SECRET_KEY"), ("env_default", "123")]⟩,
         .str ""),
       (⟨"data", false, "map[string]string", [("env", "DATA")]⟩, .other .Map "map[]")])).err
      = none ∧
    (Parse [] (structPtr
      [(⟨"port", false, "int", [("env", "PORT")]⟩, .int .Int 0),
       (⟨"secret_key", false, "string", [("env", "SECRET_KEY"), ("env_default", "123")]⟩,
         .str ""),
       (⟨"data", false, "map[string]string", [("env", "DATA")]⟩, .other .Map "map[]")])).lookups
      = [] :=
  ⟨(C12_unexported_skipped []
      [(⟨"port", false, "int", [("env", "PORT")]⟩, .int .Int 0),
       (⟨"secret_key", false, "string", [("env", "SECRET_KEY"), ("env_default", "123")]⟩,
         .str ""),
       (⟨"data", false, "map[string]string", [("env", "DATA")]⟩, .other .Map "map[]")]
      0 ⟨"port", false, "int", [("env", "PORT")]⟩ (.int .Int 0) rfl rfl).1, rfl, rfl⟩

/-- C13: a settable field whose type is none of string, bool, signed integer
or struct, and whose lookup resolves to a string, adds exactly one unsupported
type error naming its type and its name to the error set, between the entries
of the fields before it and those of the fields after it, and keeps its
value. -/
theorem C13_unsupported_type (environ : Environ) (fs : Fields) (i : Nat) (f : StructField)
    (v : Value) (s : String) (ls : List String)
    (hi : fs[i]? = some (f, v)) (hset : f.CanSet = true)
    (hty : (∃ e, v = .ptr e) ∨ (∃ k c, v = .other k c))
    (hres : getEnv environ f = (.ok s, ls)) :
    entries (Parse environ (structPtr fs)).err =
        entries (Parse environ (structPtr (fs.take i))).err ++
          [GoError.unsupportedType f.Typ f.Name] ++
          entries (Parse environ (structPtr (fs.drop (i + 1)))).err ∧
      (fieldsOf (Parse environ (structPtr fs)).cfg)[i]? = some (f, v) := by
  have hp : parseField environ f v = ⟨v, [GoError.unsupportedType f.Typ f.Name], ls⟩ := by
    rcases hty with ⟨e, rfl⟩ | ⟨k, c, rfl⟩
    · rw [parseField_leaf environ f (.ptr e) hset rfl, hres]
      rfl
    · rw [parseField_leaf environ f (.other k c) hset rfl, hres]
      rfl
  constructor
  · rw [Parse_entries_split environ fs i f v hi, hp]
  · rw [Parse_field environ fs i f v hi, hp]

theorem C13_unsupported_type_witness :
    entries (Parse [("DATA", "test"), ("PORT", "8080")] (structPtr
      [(⟨"Data", true, "map[string]string", [("env", "DATA")]⟩, .other .Map "map[]"),
       (⟨"Port", true, "int", [("env", "PORT")]⟩, .int .Int 0)])).err =
      [GoError.unsupportedType "map[string]string" "Data"] ∧
    fieldsOf (Parse [("DATA", "test"), ("PORT", "8080")] (structPtr
      [(⟨"Data", true, "map[string]string", [("env", "DATA")]⟩, .other .Map "map[]"),
       (⟨"Port", true, "int", [("env", "PORT")]⟩, .int .Int 0)])).cfg =
      [(⟨"Data", true, "map[string]string", [("env", "DATA")]⟩, .other .Map "map[]"),
       (⟨"Port", true, "int", [("env", "PORT")]⟩, .int .Int 8080)] :=
  ⟨(C13_unsupported_type [("DATA", "test"), ("PORT", "8080")]
      [(⟨"Data", true, "map[string]string", [("env", "DATA")]⟩, .other .Map "map[]"),
       (⟨"Port", true, "int", [("env", "PORT")]⟩, .int .Int 0)]
      0 ⟨"Data", true, "map[string]string", [("env", "DATA")]⟩ (.other .Map "map[]") "test"
      ["DATA"] rfl rfl (Or.inr ⟨_, _, rfl⟩) rfl).1, rfl⟩


/-! ## Lemmas on the dependence on the environment -/

theorem getEnv_congr (e1 e2 : Environ) (f : StructField)
    (h : ∀ k ∈ (getEnv e1 f).2, Getenv e2 k = Getenv e1 k) :
    getEnv e2 f = getEnv e1 f := by
  unfold getEnv at h ⊢
  cases hl : StructTag.Lookup f.Tag envTag with
  | none => rfl
  | some envKey =>
    rw [hl] at h
    dsimp only at h ⊢
    by_cases hk : envKey = ""
    · simp [hk]
    · have hv : Getenv e2 envKey = Getenv e1 envKey := by
        apply h
        simp only [hk, if_false]
        split
        · simp
        · split <;> simp
      simp only [hk, if_false, hv]

theorem parseField_leaf_lookups (environ : Environ) (f : StructField) (v : Value)
    (hset : f.CanSet = true) (hns : v.isStruct = false) :
    (parseField environ f v).lookups = (getEnv environ f).2 := by
  rw [parseField_leaf environ f v hset hns]
  rcases getEnv environ f with ⟨r, ls⟩
  cases r <;> rfl

theorem parseField_congr_leaf (e1 e2 : Environ) (f : StructField) (v : Value)
    (hns : v.isStruct = false)
    (h : ∀ k ∈ (parseField e1 f v).lookups, Getenv e2 k = Getenv e1 k) :
    parseField e2 f v = parseField e1 f v := by
  cases hset : f.CanSet with
  | false => rw [parseField_skip e1 f v hset, parseField_skip e2 f v hset]
  | true =>
    rw [parseField_leaf_lookups e1 f v hset hns] at h
    rw [parseField_leaf e1 f v hset hns, parseField_leaf e2 f v hset hns,
      getEnv_congr e1 e2 f h]

mutual
theorem parseField_congr (e1 e2 : Environ) :
    (f : StructField) → (v : Value) →
      (∀ k ∈ (parseField e1 f v).lookups, Getenv e2 k = Getenv e1 k) →
      parseField e2 f v = parseField e1 f v
  | f, .struct fs => by
    intro h
    cases hset : f.CanSet with
    | false => rw [parseField_skip e1 f _ hset, parseField_skip e2 f _ hset]
    | true =>
      rw [parseField_struct e1 f fs hset] at h
      rw [parseField_struct e1 f fs hset, parseField_struct e2 f fs hset,
        parseLoop_congr e1 e2 fs h]
  | f, .str s => parseField_congr_leaf e1 e2 f _ rfl
  | f, .bool b => parseField_congr_leaf e1 e2 f _ rfl
  | f, .int k n => parseField_congr_leaf e1 e2 f _ rfl
  | f, .ptr e => parseField_congr_leaf e1 e2 f _ rfl
  | f, .other k c => parseField_congr_leaf e1 e2 f _ rfl
theorem parseLoop_congr (e1 e2 : Environ) :
    (fs : Fields) → (∀ k ∈ (parseLoop e1 fs).lookups, Getenv e2 k = Getenv e1 k) →
      parseLoop e2 fs = parseLoop e1 fs
  | [] => by
    intro _
    rw [parseLoop_nil, parseLoop_nil]
  | (f, v) :: rest => by
    intro h
    rw [parseLoop_cons] at h
    simp only [List.mem_append] at h
    rw [parseLoop_cons, parseLoop_cons,
      parseField_congr e1 e2 f v (fun k hk => h k (Or.inl hk)),
      parseLoop_congr e1 e2 rest (fun k hk => h k (Or.inr hk))]
end

/-- C14: `Parse` is a function of the record and of the environment variables
it looks up: two calls on targets with equal fields, under environments that
agree on those variables (in particular under one unchanged environment),
leave equal fields in the targets and return equal error sets. -/
theorem C14_deterministic (e1 e2 : Environ) (fs1 fs2 : Fields) (hfs : fs1 = fs2)
    (henv : ∀ k ∈ (Parse e1 (structPtr fs1)).lookups, Getenv e2 k = Getenv e1 k) :
    fieldsOf (Parse e2 (structPtr fs2)).cfg = fieldsOf (Parse e1 (structPtr fs1)).cfg ∧
      (Parse e2 (structPtr fs2)).err = (Parse e1 (structPtr fs1)).err := by
  subst hfs
  rw [Parse_lookups] at henv
  rw [Parse_structPtr, Parse_structPtr, parseLoop_congr e1 e2 fs1 henv]
  exact ⟨rfl, rfl⟩

theorem C14_deterministic_witness :
    fieldsOf (Parse [("HOME", "/root"), ("PORT", "8080")] (structPtr
      [(⟨"Port", true, "int", [("env", "PORT")]⟩, .int .Int 0),
       (⟨"AppName", true, "string", [("env", "APP_NAME")]⟩, .str "")])).cfg =
      fieldsOf (Parse [("PORT", "8080")] (structPtr
        [(⟨"Port", true, "int", [("env", "PORT")]⟩, .int .Int 0),
         (⟨"AppName", true, "string", [("env", "APP_NAME")]⟩, .str "")])).cfg ∧
    (Parse [("HOME", "/root"), ("PORT", "8080")] (structPtr
      [(⟨"Port", true, "int", [("env", "PORT")]⟩, .int .Int 0),
       (⟨"AppName", true, "string", [("env", "APP_NAME")]⟩, .str "")])).err =
      (Parse [("PORT", "8080")] (structPtr
        [(⟨"Port", true, "int", [("env", "PORT")]⟩, .int .Int 0),
         (⟨"AppName", true, "string", [("env", "APP_NAME")]⟩, .str "")])).err :=
  C14_deterministic [("PORT", "8080")] [("HOME", "/root"), ("PORT", "8080")]
    [(⟨"Port", true, "int", [("env", "PORT")]⟩, .int .Int 0),
     (⟨"AppName", true, "string", [("env", "APP_NAME")]⟩, .str "")]
    [(⟨"Port", true, "int", [("env", "PORT")]⟩, .int .Int 0),
     (⟨"AppName", true, "string", [("env", "APP_NAME")]⟩, .str "")]
    rfl (by decide)


/-- C15: on a non-nil pointer to a struct with zero fields `Parse` returns nil
and leaves the target as it was, without looking up any variable. -/
theorem C15_zero_fields (environ : Environ) :
    (Parse environ (structPtr [])).err = none ∧
      (Parse environ (structPtr [])).cfg = structPtr [] ∧
      (Parse environ (structPtr [])).lookups = [] :=
  ⟨rfl, rfl, rfl⟩

/-- C16: with `APP_NAME=svc`, `DB_HOST=127.0.0.1`, `DB_PORT=27017` and
`DB_SSL_MODE` unset, `Parse` on the zero-valued record of the scenario returns
nil and leaves `AppName = "svc"`, `Database.Host = "127.0.0.1"`,
`Database.Port = 27017` and `Database.SSLMode = true`. -/
theorem C16_scenario :
    (Parse [("APP_NAME", "svc"), ("DB_HOST", "127.0.0.1"), ("DB_PORT", "27017")] (structPtr
      [(⟨"AppName", true, "string", [("env", "APP_NAME")]⟩, .str ""),
       (⟨"Database", true, "struct", []⟩, .struct
         [(⟨"Host", true, "string", [("env", "DB_HOST")]⟩, .str ""),
          (⟨"Port", true, "int", [("env", "DB_PORT")]⟩, .int .Int 0),
          (⟨"SSLMode", true, "bool", [("env", "DB_SSL_MODE"), ("env_default", "true")]⟩,
            .bool false)])])).err = none ∧
    (Parse [("APP_NAME", "svc"), ("DB_HOST", "127.0.0.1"), ("DB_PORT", "27017")] (structPtr
      [(⟨"AppName", true, "string", [("env", "APP_NAME")]⟩, .str ""),
       (⟨"Database", true, "struct", []⟩, .struct
         [(⟨"Host", true, "string", [("env", "DB_HOST")]⟩, .str ""),
          (⟨"Port", true, "int", [("env", "DB_PORT")]⟩, .int .Int 0),
          (⟨"SSLMode", true, "bool", [("env", "DB_SSL_MODE"), ("env_default", "true")]⟩,
            .bool false)])])).cfg =
      structPtr
        [(⟨"AppName", true, "string", [("env", "APP_NAME")]⟩, .str "svc"),
         (⟨"Database", true, "struct", []⟩, .struct
           [(⟨"Host", true, "string", [("env", "DB_HOST")]⟩, .str "127.0.0.1"),
            (⟨"Port", true, "int", [("env", "DB_PORT")]⟩, .int .Int 27017),
            (⟨"SSLMode", true, "bool", [("env", "DB_SSL_MODE"), ("env_default", "true")]⟩,
              .bool true)])] :=
  ⟨rfl, rfl⟩

/-! ## Lemmas on a second call -/

theorem setField_idem (f : StructField) (v : Value) (s : String) (hns : v.isStruct = false) :
    (setField f v s).1.isStruct = false ∧ setField f (setField f v s).1 s = setField f v s := by
  cases v with
  | str o => exact ⟨rfl, rfl⟩
  | bool b =>
    simp only [setField]
    rcases hp : ParseBool s with ⟨x, e⟩
    cases e with
    | none =>
      refine ⟨rfl, ?_⟩
      simp only [setField, hp]
    | some c =>
      refine ⟨rfl, ?_⟩
      simp only [setField, hp]
  | int k n =>
    simp only [setField]
    rcases hp : ParseInt s k.Bits with ⟨x, e⟩
    cases e with
    | none =>
      refine ⟨rfl, ?_⟩
      simp only [setField, hp]
    | some c =>
      refine ⟨rfl, ?_⟩
      simp only [setField, hp]
  | struct fs => simp [Value.isStruct] at hns
  | ptr e => exact ⟨rfl, rfl⟩
  | other k c => exact ⟨rfl, rfl⟩

theorem parseField_idem_leaf (environ : Environ) (f : StructField) (v : Value)
    (hns : v.isStruct = false) :
    parseField environ f (parseField environ f v).value = parseField environ f v := by
  cases hset : f.CanSet with
  | false => simp only [parseField_skip environ f _ hset]
  | true =>
    rw [parseField_leaf environ f v hset hns]
    rcases hg : getEnv environ f with ⟨r, ls⟩
    cases r with
    | error e =>
      dsimp only
      rw [parseField_leaf environ f v hset hns, hg]
    | ok s =>
      dsimp only
      obtain ⟨h1, h2⟩ := setField_idem f v s hns
      rw [parseField_leaf environ f _ hset h1, hg]
      dsimp only
      rw [h2]

mutual
theorem parseField_idem (environ : Environ) :
    (f : StructField) → (v : Value) →
      parseField environ f (parseField environ f v).value = parseField environ f v
  | f, .struct fs => by
    cases hset : f.CanSet with
    | false => simp only [parseField_skip environ f _ hset]
    | true =>
      rw [parseField_struct environ f fs hset]
      dsimp only
      rw [parseField_struct environ f _ hset, parseLoop_idem environ fs]
  | f, .str s => parseField_idem_leaf environ f _ rfl
  | f, .bool b => parseField_idem_leaf environ f _ rfl
  | f, .int k n => parseField_idem_leaf environ f _ rfl
  | f, .ptr e => parseField_idem_leaf environ f _ rfl
  | f, .other k c => parseField_idem_leaf environ f _ rfl
theorem parseLoop_idem (environ : Environ) :
    (fs : Fields) → parseLoop environ (parseLoop environ fs).fields = parseLoop environ fs
  | [] => by simp only [parseLoop_nil]
  | (f, v) :: rest => by
    rw [parseLoop_cons]
    dsimp only
    rw [parseLoop_cons]
    dsimp only
    rw [parseField_idem environ f v, parseLoop_idem environ rest]
end

theorem Parse_not_structPtr (environ : Environ) (cfg : Option Value)
    (h : ¬ ∃ fs, cfg = structPtr fs) :
    Parse environ cfg = ⟨cfg, some GoError.ErrNotStructPtr, []⟩ := by
  have hg : getRefValue cfg = .error GoError.ErrNotStructPtr := by
    unfold getRefValue
    split
    · rename_i fs
      exact absurd ⟨fs, rfl⟩ h
    · rfl
  unfold Parse
  rw [hg]

/-- C17: a second `Parse` under the same environment on the target a first
`Parse` produced leaves every field as it is, returns the same error and looks
up the same variables, whatever the argument of the first call. -/
theorem C17_second_call (environ : Environ) (cfg : Option Value) :
    Parse environ (Parse environ cfg).cfg = Parse environ cfg := by
  by_cases h : ∃ fs, cfg = structPtr fs
  · obtain ⟨fs, rfl⟩ := h
    rw [Parse_structPtr]
    dsimp only
    rw [Parse_structPtr, parseLoop_idem environ fs]
  · rw [Parse_not_structPtr environ cfg h]
    dsimp only
    exact Parse_not_structPtr environ cfg h


/-! ## Lemmas on the errors of one field -/

theorem fieldFailure_length (environ : Environ) (f : StructField) (v : Value)
    (hns : v.isStruct = false) : (fieldFailure environ f v).length ≤ 1 := by
  unfold fieldFailure
  rcases getEnv environ f with ⟨r, ls⟩
  cases r with
  | error e => simp
  | ok s =>
    dsimp only
    rcases setField_errs f v s hns with h | ⟨c, h⟩ | h <;> rw [h] <;> simp

theorem parseLoop_errs_of_not_settable (environ : Environ) (fs : Fields)
    (h : ∀ g ∈ fs, g.1.CanSet = false) : (parseLoop environ fs).errs = [] := by
  induction fs with
  | nil => rw [parseLoop_nil]
  | cons x rest ih =>
    rw [parseLoop_cons, parseField_skip environ x.1 x.2 (h x (List.mem_cons_self _ _)),
      ih (fun g hg => h g (List.mem_cons_of_mem _ hg))]
    rfl

theorem setField_of_coerce_none (f : StructField) (v : Value) (s : String)
    (hty : (∃ b, v = .bool b) ∨ (∃ k n, v = .int k n)) (h : coerce v s = none) :
    ∃ cause, setField f v s = (v, [GoError.ErrParseErr f.Name f.Typ cause]) := by
  rcases hty with ⟨b, rfl⟩ | ⟨k, n, rfl⟩
  · simp only [coerce] at h
    simp only [setField]
    rcases hp : ParseBool s with ⟨x, e⟩
    rw [hp] at h
    cases e with
    | none => simp at h
    | some c => exact ⟨c, rfl⟩
  · simp only [coerce] at h
    simp only [setField]
    rcases hp : ParseInt s k.Bits with ⟨x, e⟩
    rw [hp] at h
    cases e with
    | none => simp at h
    | some c => exact ⟨c, rfl⟩

/-- C18: a settable field that is not a struct adds at most one entry to the
error set, and a failed resolution comes before the classification by type:
with a lookup key that the environment leaves unset or empty and no default,
the one entry is `ErrEmptyValue`, whatever the field's type; a field of an
unsupported type whose key has a value in the environment adds the unsupported
type error instead. -/
theorem C18_one_error_per_field (environ : Environ) (fs : Fields) (i : Nat) (f : StructField)
    (v : Value) (hi : fs[i]? = some (f, v)) (hset : f.CanSet = true)
    (hns : v.isStruct = false) :
    (∃ own, own.length ≤ 1 ∧
      entries (Parse environ (structPtr fs)).err =
        entries (Parse environ (structPtr (fs.take i))).err ++ own ++
          entries (Parse environ (structPtr (fs.drop (i + 1)))).err) ∧
    (∀ k, StructTag.Lookup f.Tag envTag = some k → k ≠ "" → Getenv environ k = "" →
      StructTag.Get f.Tag envDefaultTag = "" →
      entries (Parse environ (structPtr fs)).err =
        entries (Parse environ (structPtr (fs.take i))).err ++
          [GoError.ErrEmptyValue f.Name k] ++
          entries (Parse environ (structPtr (fs.drop (i + 1)))).err) ∧
    (∀ k, ((∃ e, v = .ptr e) ∨ (∃ kd c, v = .other kd c)) →
      StructTag.Lookup f.Tag envTag = some k → k ≠ "" → Getenv environ k ≠ "" →
      entries (Parse environ (structPtr fs)).err =
        entries (Parse environ (structPtr (fs.take i))).err ++
          [GoError.unsupportedType f.Typ f.Name] ++
          entries (Parse environ (structPtr (fs.drop (i + 1)))).err) := by
  have hsplit := Parse_entries_split environ fs i f v hi
  refine ⟨⟨(parseField environ f v).errs, ?_, hsplit⟩, ?_, ?_⟩
  · rw [parseField_leaf_errs environ f v hset hns]
    exact fieldFailure_length environ f v hns
  · intro k hkey hk hv hd
    rw [hsplit, parseField_missing environ f v _ [k] hset hns
      (getEnv_missing environ f k hkey hk hv hd)]
  · intro k hty hkey hk hv
    rw [hsplit, parseField_leaf environ f v hset hns,
      getEnv_env environ f k (Getenv environ k) hkey hk rfl hv]
    rcases hty with ⟨e, rfl⟩ | ⟨kd, c, rfl⟩ <;> rfl

theorem C18_one_error_per_field_witness :
    entries (Parse [] (structPtr
      [(⟨"Data", true, "map[string]string", [("env", "DATA")]⟩, .other .Map "map[]")])).err =
      [GoError.ErrEmptyValue "Data" "DATA"] ∧
    entries (Parse [("DATA", "test")] (structPtr
      [(⟨"Data", true, "map[string]string", [("env", "DATA")]⟩, .other .Map "map[]")])).err =
      [GoError.unsupportedType "map[string]string" "Data"] :=
  ⟨(C18_one_error_per_field []
      [(⟨"Data", true, "map[string]string", [("env", "DATA")]⟩, .other .Map "map[]")] 0
      ⟨"Data", true, "map[string]string", [("env", "DATA")]⟩ (.other .Map "map[]")
      rfl rfl rfl).2.1 "DATA" rfl (by decide) rfl rfl,
   (C18_one_error_per_field [("DATA", "test")]
      [(⟨"Data", true, "map[string]string", [("env", "DATA")]⟩, .other .Map "map[]")] 0
      ⟨"Data", true, "map[string]string", [("env", "DATA")]⟩ (.other .Map "map[]")
      rfl rfl rfl).2.2 "DATA" (Or.inr ⟨_, _, rfl⟩) rfl (by decide) (by decide)⟩

/-- C19: the tag of a settable struct field plays no part: with any other tag
in its place the returned error, the variables looked up and the values left
in the fields are the same; the field is not assigned, its value after the
call is the struct `Parse` leaves when called on it alone, its entry in the
error set is the error of that call, the failures below that entry are the
failures of its own fields, and there is no entry when none of its fields can
be set. -/
theorem C19_struct_tag_ignored (environ : Environ) (before after inner : Fields)
    (f : StructField) (tag : StructTag) (hset : f.CanSet = true) :
    (Parse environ (structPtr
        (before ++ (⟨f.Name, f.Exported, f.Typ, tag⟩, .struct inner) :: after))).err =
      (Parse environ (structPtr (before ++ (f, .struct inner) :: after))).err ∧
    (Parse environ (structPtr
        (before ++ (⟨f.Name, f.Exported, f.Typ, tag⟩, .struct inner) :: after))).lookups =
      (Parse environ (structPtr (before ++ (f, .struct inner) :: after))).lookups ∧
    (fieldsOf (Parse environ (structPtr
        (before ++ (⟨f.Name, f.Exported, f.Typ, tag⟩, .struct inner) :: after))).cfg).map
        Prod.snd =
      (fieldsOf (Parse environ (structPtr (before ++ (f, .struct inner) :: after))).cfg).map
        Prod.snd ∧
    fieldsOf (Parse environ (structPtr (before ++ (f, .struct inner) :: after))).cfg =
      fieldsOf (Parse environ (structPtr before)).cfg ++
        (f, .struct (fieldsOf (Parse environ (structPtr inner)).cfg)) ::
          fieldsOf (Parse environ (structPtr after)).cfg ∧
    entries (Parse environ (structPtr (before ++ (f, .struct inner) :: after))).err =
      entries (Parse environ (structPtr before)).err ++
        (Parse environ (structPtr inner)).err.toList ++
        entries (Parse environ (structPtr after)).err ∧
    leaves (Parse environ (structPtr (before ++ (f, .struct inner) :: after))).err =
      leaves (Parse environ (structPtr before)).err ++ failures environ inner ++
        leaves (Parse environ (structPtr after)).err ∧
    ((∀ g ∈ inner, g.1.CanSet = false) →
      entries (Parse environ (structPtr (before ++ (f, .struct inner) :: after))).err =
        entries (Parse environ (structPtr before)).err ++
          entries (Parse environ (structPtr after)).err) := by
  have hN := parseField_struct environ f inner hset
  have hN' := parseField_struct environ ⟨f.Name, f.Exported, f.Typ, tag⟩ inner hset
  have e : (Parse environ (structPtr inner)).err = errorsJoin (parseLoop environ inner).errs :=
    rfl
  refine ⟨?_, ?_, ?_, ?_, ?_, ?_, ?_⟩
  · simp only [Parse_structPtr, parseLoop_around, hN, hN']
  · simp only [Parse_lookups, parseLoop_around, hN, hN']
  · simp only [Parse_fields, parseLoop_around, hN, hN', List.map_append, List.map_cons]
  · simp only [Parse_fields, parseLoop_around, hN]
  · simp only [Parse_entries, parseLoop_around, hN, e]
  · simp only [Parse_leaves, parseLoop_around, hN, leavesList_append, leavesList_toList,
      leaves_errorsJoin, leaves_parseLoop]
  · intro hno
    simp only [Parse_entries, parseLoop_around, hN,
      parseLoop_errs_of_not_settable environ inner hno]
    simp [errorsJoin]

theorem C19_struct_tag_ignored_witness :
    (Parse [("DB", "x")] (structPtr
        ([] ++ (⟨"Database", true, "struct", [("env", "DB_MISSING")]⟩, .struct
          [(⟨"Host", true, "string", [("env", "DB_HOST"), ("env_default", "h")]⟩,
            .str "")]) :: []))).err =
      (Parse [("DB", "x")] (structPtr
        ([] ++ (⟨"Database", true, "struct", [("env", "DB")]⟩, .struct
          [(⟨"Host", true, "string", [("env", "DB_HOST"), ("env_default", "h")]⟩,
            .str "")]) :: []))).err ∧
    (Parse [("DB", "x")] (structPtr
        ([] ++ (⟨"Database", true, "struct", [("env", "DB_MISSING")]⟩, .struct
          [(⟨"Host", true, "string", [("env", "DB_HOST"), ("env_default", "h")]⟩,
            .str "")]) :: []))).err = none :=
  ⟨(C19_struct_tag_ignored [("DB", "x")] [] []
      [(⟨"Host", true, "string", [("env", "DB_HOST"), ("env_default", "h")]⟩, .str "")]
      ⟨"Database", true, "struct", [("env", "DB")]⟩ [("env", "DB_MISSING")] rfl).1, rfl⟩

/-- C20: a default literal goes through the same coercion as an environment
value: for a settable bool or signed integer field whose lookup key the
environment leaves unset or empty and whose non-empty default does not coerce
to the field's type, `Parse` adds one `ErrParseErr` naming the field, and no
`ErrEmptyValue`, to the error set, and leaves the field unchanged. -/
theorem C20_default_not_coercible (environ : Environ) (fs : Fields) (i : Nat)
    (f : StructField) (v : Value) (k d : String)
    (hi : fs[i]? = some (f, v)) (hset : f.CanSet = true)
    (hty : (∃ b, v = .bool b) ∨ (∃ kd n, v = .int kd n))
    (hkey : StructTag.Lookup f.Tag envTag = some k) (hk : k ≠ "")
    (hv : Getenv environ k = "") (hd : StructTag.Get f.Tag envDefaultTag = d) (hdne : d ≠ "")
    (hco : coerce v d = none) :
    ∃ cause,
      entries (Parse environ (structPtr fs)).err =
        entries (Parse environ (structPtr (fs.take i))).err ++
          [GoError.ErrParseErr f.Name f.Typ cause] ++
          entries (Parse environ (structPtr (fs.drop (i + 1)))).err ∧
      (fieldsOf (Parse environ (structPtr fs)).cfg)[i]? = some (f, v) := by
  obtain ⟨cause, hsf⟩ := setField_of_coerce_none f v d hty hco
  have hns : v.isStruct = false := by
    rcases hty with ⟨b, rfl⟩ | ⟨kd, n, rfl⟩ <;> rfl
  have hp : parseField environ f v =
      ⟨v, [GoError.ErrParseErr f.Name f.Typ cause], [k]⟩ := by
    rw [parseField_leaf environ f v hset hns, getEnv_default environ f k d hkey hk hv hd hdne]
    simp only [hsf]
  refine ⟨cause, ?_, ?_⟩
  · rw [Parse_entries_split environ fs i f v hi, hp]
  · rw [Parse_field environ fs i f v hi, hp]

theorem C20_default_not_coercible_witness :
    ∃ cause,
      entries (Parse [] (structPtr
        [(⟨"Level", true, "int8", [("env", "LEVEL"), ("env_default", "300")]⟩,
          .int .Int8 0)])).err =
        entries (Parse [] (structPtr [])).err ++ [GoError.ErrParseErr "Level" "int8" cause] ++
          entries (Parse [] (structPtr [])).err ∧
      (fieldsOf (Parse [] (structPtr
        [(⟨"Level", true, "int8", [("env", "LEVEL"), ("env_default", "300")]⟩,
          .int .Int8 0)])).cfg)[0]? =
        some (⟨"Level", true, "int8", [("env", "LEVEL"), ("env_default", "300")]⟩,
          .int .Int8 0) :=
  C20_default_not_coercible []
    [(⟨"Level", true, "int8", [("env", "LEVEL"), ("env_default", "300")]⟩, .int .Int8 0)] 0
    ⟨"Level", true, "int8", [("env", "LEVEL"), ("env_default", "300")]⟩ (.int .Int8 0)
    "LEVEL" "300" rfl rfl (Or.inr ⟨_, _, rfl⟩) rfl (by decide) rfl rfl (by decide) rfl

end Config
